import Mathlib

/-!
Verification development for the YTsaurus ↔ Excel integration services
(exporter and uploader). The Go sources are shallowly embedded:

* Go strings are modelled as `List Char` when they are processed rune-wise
  and as `List Nat` (octets) when the code manipulates raw bytes; all
  strings produced by the formatting paths below are ASCII, where the two
  views coincide.
* Go machine integers (`int64`, `uint64`) are modelled as `Int`/`Nat`
  with explicit `% 2 ^ 64` at the points where the Go code can wrap.
* Go `float64` values are modelled by exact rationals together with their
  shortest decimal rendering (the string produced by `fmt.Sprintf("%v", f)`);
  the float arithmetic performed by the code is embedded as exact rational
  arithmetic, which agrees with the Go computation on every input on which
  the float operations are exact (in particular on the dyadic rationals used
  as concrete inputs in this development).
* Fallible Go code is embedded with `Except`; error messages are carried
  verbatim where a claim talks about their content.
-/

set_option autoImplicit false

namespace YtExcel

/-- Decidable equality for `Except`, used to evaluate the embedded
converters on concrete inputs. -/
instance {ε α : Type} [DecidableEq ε] [DecidableEq α] : DecidableEq (Except ε α) := fun x y =>
  match x, y with
  | .ok a, .ok b =>
    if h : a = b then .isTrue (by rw [h])
    else .isFalse (fun hc => h (Except.ok.inj hc))
  | .error a, .error b =>
    if h : a = b then .isTrue (by rw [h])
    else .isFalse (fun hc => h (Except.error.inj hc))
  | .ok _, .error _ => .isFalse (fun hc => Except.noConfusion hc)
  | .error _, .ok _ => .isFalse (fun hc => Except.noConfusion hc)

/-! ## Decimal rendering of integers

`natRepr`/`intRepr` model Go's `fmt.Sprintf("%v", n)` for integer values:
the shortest decimal numeral, with a leading `-` for negative values.
The recursion is fuelled so that every definition stays kernel-reducible. -/

/-- Character for a single decimal digit `n < 10`. -/
def digitChar (n : Nat) : Char := Char.ofNat (48 + n)

/-- Fuelled most-significant-first decimal digit expansion. -/
def digitsCore : Nat → Nat → List Char
  | 0, _ => []
  | fuel + 1, n => if n < 10 then [digitChar n] else digitsCore fuel (n / 10) ++ [digitChar (n % 10)]

/-- Decimal numeral of a natural number, as written by Go's `fmt` package. -/
def natRepr (n : Nat) : List Char := digitsCore (n + 1) n

/-- Decimal numeral of an integer, as written by Go's `fmt` package. -/
def intRepr (z : Int) : List Char :=
  if z < 0 then '-' :: natRepr z.natAbs else natRepr z.natAbs

/-- Numeric value of a list of decimal digit characters (fold, as a decimal parser would). -/
def digitsValCore : List Char → Nat → Nat
  | [], acc => acc
  | c :: cs, acc => digitsValCore cs (acc * 10 + (c.toNat - 48))

/-- Value of a decimal digit string. -/
def digitsVal (cs : List Char) : Nat := digitsValCore cs 0

/-- Recognizer for ASCII decimal digits. -/
def isDigitCh (c : Char) : Bool := 48 ≤ c.toNat && c.toNat ≤ 57

/-! ## Byte strings -/

/-- Octets of an ASCII string (every formatted output below is ASCII,
so byte length and rune length agree). -/
def strBytes (s : String) : List Nat := s.data.map Char.toNat

/-! ## `fitsInNumber` (exporter/internal/exporter/converter.go:342)

The Go source renders the value with `%v` and then applies, in order:
`strings.TrimPrefix(s, "-")`, `strings.TrimLeftFunc` for `'0'`,
`strings.TrimPrefix(s, ".")`, `strings.TrimRightFunc` for `'0'`,
and finally checks `len(s) <= 15`. -/

/-- Model of `strings.TrimPrefix(s, "-")`. -/
def dropSign : List Char → List Char
  | '-' :: cs => cs
  | cs => cs

/-- Model of `strings.TrimLeftFunc(s, r == '0')`. -/
def dropLeadingZeros (cs : List Char) : List Char := cs.dropWhile (fun c => c = '0')

/-- Model of `strings.TrimPrefix(s, ".")`: a decimal point is removed only
when it is the leading character at this stage of the pipeline. -/
def dropLeadingDot : List Char → List Char
  | '.' :: cs => cs
  | cs => cs

/-- Model of `strings.TrimRightFunc(s, r == '0')`. -/
def dropTrailingZeros (cs : List Char) : List Char :=
  (cs.reverse.dropWhile (fun c => c = '0')).reverse

/-- The trimming pipeline of `fitsInNumber`, applied to the `%v` rendering. -/
def fitsCore (cs : List Char) : Bool :=
  (dropTrailingZeros (dropLeadingDot (dropLeadingZeros (dropSign cs)))).length ≤ 15

/-- `fitsInNumber` specialized to integer input (`int64`/`uint64`/`interval`). -/
def fitsInNumberInt (z : Int) : Bool := fitsCore (intRepr z)

/-! ## Excel cell model (exporter) -/

/-- The four styles registered by `registerCellStyles`; `none` below models
Go's zero `StyleID`. -/
inductive CellStyle where
  | number
  | date
  | datetime
  | timestamp
  deriving DecidableEq, Repr

/-- Dynamic value stored in an `excelize.Cell`. Strings and byte slices are
both byte strings in this model. -/
inductive CellValue where
  | int (z : Int)
  | float (q : Rat)
  | bool (b : Bool)
  | str (bs : List Nat)
  deriving DecidableEq, Repr

/-- Model of `excelize.Cell` as produced by the converter. -/
structure Cell where
  style : Option CellStyle
  value : CellValue
  deriving DecidableEq, Repr

/-- A Go `float64` as the converter sees it: its exact rational value paired
with its `%v` rendering. The rendering is Go's shortest decimal
representation of the float, which never exceeds 24 bytes
(e.g. `-2.2250738585072014e-308`); that documented bound travels separately
in `valueWF`. -/
structure GoFloat where
  val : Rat
  rendered : List Char
  deriving DecidableEq, Repr

/-- `fitsInNumber` on a float argument: the Go code formats the float with
`%v`, i.e. uses exactly its shortest rendering. -/
def fitsInNumberFloat (f : GoFloat) : Bool := fitsCore f.rendered

/-- Dynamic value of a table cell arriving from the table reader.
`anyVal` carries the `yson.Marshal` serialization of an `any` value (the
marshaller itself is external to this repository; its output is what the
converter truncates). -/
inductive Value where
  | int (z : Int)
  | float (f : GoFloat)
  | bool (b : Bool)
  | str (bs : List Nat)
  | anyVal (ys : List Nat)
  deriving DecidableEq, Repr

/-- Conversion errors of the exporter. `tooLarge` carries the accumulated
row weight and the configured limit; the Go code renders both with
`datasize.ByteSize.HumanReadable()` into the message text. -/
inductive ConvErr where
  | msg (s : String)
  | tooLarge (total maxSize : Nat)
  | typeMismatch
  deriving DecidableEq, Repr

/-! ## Value converters (exporter/internal/exporter/converter.go)

`NumberPrecisionMode` is a string type in Go; the switch in
`convertLargeIntegers`/`convertFloat` falls through to a
"not recognized" error for any other value, which the model keeps. -/

/-- Excel's hard cap on string cell length. -/
def maxExcelStrLen : Nat := 32767

/-- Model of `converter.convertBytes`: byte-truncate to `maxExcelStrLen`
(the Go code slices `data[:maxExcelStrLen]`, which `List.take` matches
octet for octet). -/
def convertBytes (bs : List Nat) : Except ConvErr Cell :=
  .ok ⟨none, .str (bs.take maxExcelStrLen)⟩

/-- Model of `converter.convertSmallIntegers`. -/
def convertSmallIntegers (z : Int) : Except ConvErr Cell :=
  .ok ⟨some .number, .int z⟩

/-- Model of `converter.convertLargeIntegers` (also used for `interval`). -/
def convertLargeIntegers (mode : String) (z : Int) : Except ConvErr Cell :=
  if fitsInNumberInt z then convertSmallIntegers z
  else if mode = "error" then
    .error (.msg ("can not fit " ++ String.mk (intRepr z) ++
      " in excel; use another handle of long numbers"))
  else if mode = "string" then .ok ⟨none, .str ((intRepr z).map Char.toNat)⟩
  else if mode = "lose" then convertSmallIntegers z
  else .error (.msg "long numbers handle not recognized")

/-- Model of `converter.convertFloat`. -/
def convertFloat (mode : String) (f : GoFloat) : Except ConvErr Cell :=
  if fitsInNumberFloat f then .ok ⟨none, .float f.val⟩
  else if mode = "error" then
    .error (.msg ("can not fit " ++ String.mk f.rendered ++
      " in excel; use another long numbers handle"))
  else if mode = "string" then .ok ⟨none, .str (f.rendered.map Char.toNat)⟩
  else if mode = "lose" then .ok ⟨none, .float f.val⟩
  else .error (.msg "long numbers handle not recognized")

/-- Model of `converter.convertBool`. -/
def convertBool (b : Bool) : Except ConvErr Cell :=
  .ok ⟨none, .bool b⟩

/-- Model of `converter.convertAny`: the `yson.Marshal` output (carried by
the value) is byte-truncated exactly like strings. -/
def convertAny (ys : List Nat) : Except ConvErr Cell :=
  .ok ⟨none, .str (ys.take maxExcelStrLen)⟩

/-- Model of `converter.convertDate`: `v + 25569` in wrapping `uint64`
arithmetic, with the Date style. (`uint64(unixEpoch.Add(day).Sub(excelEpoch).Hours()/24)`
evaluates to 25569.) -/
def convertDateEx (n : Nat) : Except ConvErr Cell :=
  .ok ⟨some .date, .int (((n + 25569) % 2 ^ 64 : Nat) : Int)⟩

/-- Model of `converter.convertDatetime`: `float64(v + 25569·86400) / 86400`
with the Datetime style; the `uint64` sum wraps before the conversion. -/
def convertDatetimeEx (n : Nat) : Except ConvErr Cell :=
  .ok ⟨some .datetime, .float ((((n + 2209161600) % 2 ^ 64 : Nat) : Rat) / 86400)⟩

/-! ## ISO-8601 rendering of sub-millisecond timestamps

`convertTimestamp` hands `time.Unix(t/1e6, (t%1e6)*1e3).UTC()` to
`Time.Format("2006-01-02T15:04:05.999999Z")`. `time.Unix` normalizes the
(possibly negative) second/nanosecond pair into the single instant
`t` microseconds from the unix epoch, and the UTC formatter renders that
instant on the proleptic Gregorian calendar; the model below computes the
same civil fields by floor division (for a positive divisor `Int.ediv`
and `Int.emod` are exactly floor division and its nonnegative remainder).
The `.999999` fraction directive prints at most six fractional digits and
drops trailing zeros (and the point itself when the fraction is zero). -/

/-- Civil (proleptic Gregorian) date of a day count relative to 1970-01-01. -/
def civilFromDays (z0 : Int) : Int × Nat × Nat :=
  let z := z0 + 719468
  let era := z / 146097
  let doe : Nat := (z % 146097).toNat
  let yoe : Nat := (doe - doe / 1460 + doe / 36524 - doe / 146096) / 365
  let doy : Nat := doe - (365 * yoe + yoe / 4 - yoe / 100)
  let mp : Nat := (5 * doy + 2) / 153
  let d : Nat := doy - (153 * mp + 2) / 5 + 1
  let m : Nat := if mp < 10 then mp + 3 else mp - 9
  let y : Int := (yoe : Int) + era * 400 + (if m ≤ 2 then 1 else 0)
  (y, m, d)

/-- Left-pad a numeral with zeros to a given width. -/
def padLeftZeros (w : Nat) (cs : List Char) : List Char :=
  List.replicate (w - cs.length) '0' ++ cs

/-- Two-digit zero-padded field (hours, minutes, seconds, month, day). -/
def pad2 (n : Nat) : List Char := padLeftZeros 2 (natRepr n)

/-- Year field: at least four digits, with a sign for negative years. -/
def pad4Year (y : Int) : List Char :=
  if y < 0 then '-' :: padLeftZeros 4 (natRepr y.natAbs) else padLeftZeros 4 (natRepr y.natAbs)

/-- Fractional-second field of the `.999999` directive: six digits of
microseconds with trailing zeros removed; empty (no point) for a zero
fraction. -/
def fracTrim (u : Nat) : List Char :=
  let tz := dropTrailingZeros (padLeftZeros 6 (natRepr u))
  if tz = [] then [] else '.' :: tz

/-- Assemble `yyyy-MM-ddTHH:mm:ss(.f+)?Z` from civil fields. -/
def isoRender (y : Int) (mo d hh mi ss u : Nat) : String :=
  String.mk (pad4Year y ++ '-' :: pad2 mo ++ '-' :: pad2 d ++ 'T' :: pad2 hh ++
    ':' :: pad2 mi ++ ':' :: pad2 ss ++ fracTrim u ++ ['Z'])

/-- The string produced by the Go formatting path of `convertTimestamp` for
the instant `t` microseconds from the unix epoch: split off the day by
floor division, then the clock fields of the day, then the microsecond
fraction of the second. -/
def goTimestampString (t : Int) : String :=
  let u : Nat := (t % 86400000000).toNat
  let sod : Nat := u / 1000000
  let c := civilFromDays (t / 86400000000)
  isoRender c.1 c.2.1 c.2.2 (sod / 3600) (sod % 3600 / 60) (sod % 60) (u % 1000000)

/-- Go's conversion `int64(v)` of a `uint64` value. -/
def toInt64 (n : Nat) : Int :=
  if n < 2 ^ 63 then (n : Int) else (n : Int) - 2 ^ 64

/-- Model of `converter.convertTimestamp`: millisecond-precision values
become a styled serial number (`uint64` addition wraps before the float
division), all others are rendered as ISO-8601 text through the `int64`
cast of the value. -/
def convertTimestampEx (n : Nat) : Except ConvErr Cell :=
  if n % 1000 = 0 then
    .ok ⟨some .timestamp, .float ((((n + 2209161600000000) % 2 ^ 64 : Nat) : Rat) / 86400 / 1000000)⟩
  else
    .ok ⟨none, .str (strBytes (goTimestampString (toInt64 n)))⟩

/-! ## Type dispatch (`converter.convert`)

`schema.Type` is a string type in the Go client library; the constants the
switch matches are `TypeBytes = "string"`, `TypeString = "utf8"`,
`TypeFloat32 = "float"`, `TypeFloat64 = "double"`, `TypeBoolean = "boolean"`,
and the self-named integer/date/any tokens (the repository's own
`GetColumnType` test pins this table). A dynamic-type mismatch between the
schema type and the value models the panic of Go's unchecked type
assertions (`v.(string)` etc.) as `typeMismatch`. -/

/-- Model of `converter.convert`. -/
def exConvert (mode : String) (t : String) (v : Value) : Except ConvErr Cell :=
  if t = "string" then match v with | .str bs => convertBytes bs | _ => .error .typeMismatch
  else if t = "utf8" then match v with | .str bs => convertBytes bs | _ => .error .typeMismatch
  else if t = "int8" ∨ t = "uint8" ∨ t = "int16" ∨ t = "uint16" ∨ t = "int32" ∨ t = "uint32" then
    match v with | .int z => convertSmallIntegers z | _ => .error .typeMismatch
  else if t = "int64" ∨ t = "uint64" then
    match v with | .int z => convertLargeIntegers mode z | _ => .error .typeMismatch
  else if t = "float" ∨ t = "double" then
    match v with | .float f => convertFloat mode f | _ => .error .typeMismatch
  else if t = "boolean" then
    match v with | .bool b => convertBool b | _ => .error .typeMismatch
  else if t = "date" then
    match v with | .int z => convertDateEx z.toNat | _ => .error .typeMismatch
  else if t = "datetime" then
    match v with | .int z => convertDatetimeEx z.toNat | _ => .error .typeMismatch
  else if t = "timestamp" then
    match v with | .int z => convertTimestampEx z.toNat | _ => .error .typeMismatch
  else if t = "interval" then
    match v with | .int z => convertLargeIntegers mode z | _ => .error .typeMismatch
  else if t = "any" then
    match v with | .anyVal ys => convertAny ys | _ => .error .typeMismatch
  else .ok ⟨none, .str (strBytes "UNSUPPORTED")⟩

/-- Well-typedness of a dynamic value for a schema type: exactly the value
shapes and machine ranges the Go type system guarantees at the call site of
`convert`. For floats it also carries the documented bound on the length of
Go's shortest `float64` rendering (at most 24 bytes). -/
def valueWF (t : String) (v : Value) : Bool :=
  if t = "string" ∨ t = "utf8" then match v with | .str _ => true | _ => false
  else if t = "int8" then match v with | .int z => -2 ^ 7 ≤ z ∧ z < 2 ^ 7 | _ => false
  else if t = "int16" then match v with | .int z => -2 ^ 15 ≤ z ∧ z < 2 ^ 15 | _ => false
  else if t = "int32" then match v with | .int z => -2 ^ 31 ≤ z ∧ z < 2 ^ 31 | _ => false
  else if t = "int64" ∨ t = "interval" then
    match v with | .int z => -2 ^ 63 ≤ z ∧ z < 2 ^ 63 | _ => false
  else if t = "uint8" then match v with | .int z => 0 ≤ z ∧ z < 2 ^ 8 | _ => false
  else if t = "uint16" then match v with | .int z => 0 ≤ z ∧ z < 2 ^ 16 | _ => false
  else if t = "uint32" then match v with | .int z => 0 ≤ z ∧ z < 2 ^ 32 | _ => false
  else if t = "uint64" ∨ t = "date" ∨ t = "datetime" ∨ t = "timestamp" then
    match v with | .int z => 0 ≤ z ∧ z < 2 ^ 64 | _ => false
  else if t = "float" ∨ t = "double" then
    match v with | .float f => f.rendered.length ≤ 24 | _ => false
  else if t = "boolean" then match v with | .bool _ => true | _ => false
  else if t = "any" then match v with | .anyVal _ => true | _ => false
  else true

/-! ## Row weight accounting (`helpers.go:rowWeight`, `converter.go:Convert`) -/

/-- Per-cell weight, the `switch` of `rowWeight`: 8 bytes for every integer
or float value, 1 for booleans, byte length for strings. -/
def cellWeightGo (c : Cell) : Nat :=
  match c.value with
  | .int _ => 8
  | .float _ => 8
  | .bool _ => 1
  | .str bs => bs.length

/-- Model of `rowWeight`: fold over the row, skipping absent (`nil`) cells. -/
def rowWeight (row : List (Option Cell)) : Nat :=
  row.foldl (fun w v => match v with | none => w | some c => w + cellWeightGo c) 0

/-- A positioned input row: for each output column position, either the
schema type together with the dynamic value read for it, or `none` for an
absent or null field (the `v == nil` branch of the loop in `Convert`). -/
abbrev RowIn := List (Option (String × Value))

/-- Convert every present field of one row (the inner loop of `Convert`). -/
def convertRowCells (mode : String) : RowIn → Except ConvErr (List (Option Cell))
  | [] => .ok []
  | none :: rest => do
      let out ← convertRowCells mode rest
      .ok (none :: out)
  | some (t, v) :: rest => do
      let c ← exConvert mode t v
      let out ← convertRowCells mode rest
      .ok (some c :: out)

/-- The row loop of `Convert`: after each converted row its weight is added
to the running counter, and the conversion aborts with `tooLarge` as soon
as the counter reaches `maxSize`. On success the written rows (the
workbook content) are returned. -/
def convertLoop (mode : String) (maxSize : Nat) :
    List RowIn → Nat → Except ConvErr (List (List (Option Cell)))
  | [], _ => .ok []
  | r :: rest, acc => do
      let cells ← convertRowCells mode r
      let acc' := acc + rowWeight cells
      if maxSize ≤ acc' then .error (.tooLarge acc' maxSize)
      else do
        let out ← convertLoop mode maxSize rest acc'
        .ok (cells :: out)

/-- Model of `Convert` restricted to its data path: the counter starts at 0. -/
def exporterConvert (mode : String) (maxSize : Nat) (rows : List RowIn) :
    Except ConvErr (List (List (Option Cell))) :=
  convertLoop mode maxSize rows 0

/-- Row conversion with no size accounting, used to state what `Convert`
refines: the converted rows themselves. -/
def convertAllRows (mode : String) : List RowIn → Except ConvErr (List (List (Option Cell)))
  | [] => .ok []
  | r :: rest => do
      let cells ← convertRowCells mode r
      let out ← convertAllRows mode rest
      .ok (cells :: out)

/-! ## File name derivation (exporter/internal/exporter/exporter.go) -/

/-- Characters the regexp `[^a-zA-Z0-9_]` leaves alone. -/
def isWordChar (c : Char) : Bool :=
  ('a' ≤ c && c ≤ 'z') || ('A' ≤ c && c ≤ 'Z') || ('0' ≤ c && c ≤ '9') || c = '_'

/-- Model of `replaceNonAlphanumeric`: the regexp replaces each rune that is
not in `[a-zA-Z0-9_]` with a single `_`, scanning left to right. -/
def replaceNonAlphanumeric : List Char → List Char
  | [] => []
  | c :: cs => (if isWordChar c then c else '_') :: replaceNonAlphanumeric cs

/-- Maximum length of a generated base name: `excelMaxFilepathLength - 60`. -/
def maxFilenameLength : Nat := 158

/-- Model of `ExportRequest.MakeFileName`. `columns` is the request's
column projection (`nil`/empty ⇒ all columns, no column part); `allRows`
and the row bounds mirror the request fields; `suffix` is the appended
random name. The base (including the suffix) is truncated to 158
characters before `".xlsx"` is appended; every component except the suffix
is ASCII by construction. -/
def makeFileName (path : String) (columns : List String) (allRows : Bool)
    (startRow rowCount : Int) (suffix : List Char) : List Char :=
  let name := ('y' :: 't' :: replaceNonAlphanumeric path.data)
    ++ (if columns ≠ [] then
          '_' :: '_' :: replaceNonAlphanumeric (String.intercalate "_" columns).data
        else [])
    ++ (if allRows then [] else
          '_' :: '_' :: intRepr startRow ++ '_' :: intRepr (startRow + rowCount) ++ ['_', '_'])
    ++ suffix
  let name := if maxFilenameLength < name.length then name.take maxFilenameLength else name
  name ++ ['.', 'x', 'l', 's', 'x']

/-- Model of the suffix guard in `EnsureFileName`: append `".xlsx"` unless
the name already ends with it. -/
def ensureXlsxSuffix (name : List Char) : List Char :=
  if ['.', 'x', 'l', 's', 'x'] <:+ name then name else name ++ ['.', 'x', 'l', 's', 'x']

/-- Model of `ExportRequest.EnsureFileName`: a non-empty request filename
wins, then a non-empty `file_name` attribute (`attr`, `none` when the
attribute read failed), then the constructed name; the result always
passes through the `".xlsx"` suffix guard. -/
def ensureFileName (filename : String) (attr : Option String)
    (path : String) (columns : List String) (allRows : Bool)
    (startRow rowCount : Int) (suffix : List Char) : List Char :=
  if filename ≠ "" then ensureXlsxSuffix filename.data
  else match attr with
    | some a => if a ≠ "" then ensureXlsxSuffix a.data
        else ensureXlsxSuffix (makeFileName path columns allRows startRow rowCount suffix)
    | none => ensureXlsxSuffix (makeFileName path columns allRows startRow rowCount suffix)

/-! ## Uploader: scalar parsers (uploader/internal/uploader/uploader.go)

Cell values are read in raw mode as strings and parsed per schema type. -/

/-- Model of `strconv.ParseUint(value, 10, 64)`: a non-empty all-digit
string whose value fits in 64 bits (no sign, no point). -/
def goParseUint64 (s : String) : Except String Nat :=
  if s.data = [] then .error "invalid syntax"
  else if s.data.all isDigitCh then
    if digitsVal s.data < 2 ^ 64 then .ok (digitsVal s.data) else .error "value out of range"
  else .error "invalid syntax"

/-- Model of `strconv.ParseInt(value, 10, bitSize)`: optional sign, digits,
range check for the bit size. -/
def goParseInt (bitSize : Nat) (s : String) : Except String Int :=
  let core : List Char → Bool → Except String Int := fun ds neg =>
    if ds = [] then .error "invalid syntax"
    else if ds.all isDigitCh then
      let v : Int := if neg then -(digitsVal ds : Int) else (digitsVal ds : Int)
      if -2 ^ (bitSize - 1) ≤ v ∧ v < 2 ^ (bitSize - 1) then .ok v
      else .error "value out of range"
    else .error "invalid syntax"
  match s.data with
  | '-' :: ds => core ds true
  | '+' :: ds => core ds false
  | ds => core ds false

/-- Character-level part of the decimal parser: sign, integer-part value,
fraction-part value and fraction length of a `[+-]?digits[.digits]`
literal. -/
def parseDecParts (s : String) : Option (Bool × Nat × Nat × Nat) :=
  let core : List Char → Option (Nat × Nat × Nat) := fun ds =>
    match ds.splitOn '.' with
    | [ip] => if ip ≠ [] ∧ ip.all isDigitCh then some (digitsVal ip, 0, 0) else none
    | [ip, fp] =>
        if ip.all isDigitCh ∧ fp.all isDigitCh ∧ (ip ≠ [] ∨ fp ≠ []) then
          some (digitsVal ip, digitsVal fp, fp.length)
        else none
    | _ => none
  match s.data with
  | '-' :: ds => (core ds).map (fun p => (true, p))
  | '+' :: ds => (core ds).map (fun p => (false, p))
  | ds => (core ds).map (fun p => (false, p))

/-- Decimal fraction parser modelling `strconv.ParseFloat` on plain decimal
literals (`[+-]?digits[.digits]`), returning the exact rational value.
The Go parser returns the nearest `float64`; this model coincides with it
exactly on every input whose value is a representable dyadic (in
particular on all inputs this development evaluates concretely), and the
theorems below quantify over the parsed value, not the text. -/
def simpleParseFloat (s : String) : Option Rat :=
  (parseDecParts s).map (fun p =>
    let mag : Rat := (p.2.1 : Rat) + (p.2.2.1 : Rat) / (10 : Rat) ^ p.2.2.2
    if p.1 then -mag else mag)

/-- Wrapping `uint64` subtraction `a - b` for `a, b < 2 ^ 64`. -/
def usub (a b : Nat) : Nat := (a + 2 ^ 64 - b) % 2 ^ 64

/-- Go's conversion `uint64(f)` of a nonnegative `float64`: truncation
toward zero (the behaviour is only defined for values that fit; the model
wraps out-of-range values so the definition stays total). -/
def u64ofRat (q : Rat) : Nat := (Int.toNat ⌊q⌋) % 2 ^ 64

/-- Model of uploader `convertDate`: `ParseUint` then an unchecked wrapping
subtraction of the epoch shift 25569. -/
def convertDateUp (s : String) : Except String Nat :=
  match goParseUint64 s with
  | .error e => .error ("unable to convert to uint64: " ++ e)
  | .ok v => .ok (usub v 25569)

/-- Model of uploader `convertDatetime` on the parsed value: reject
negative input, then `uint64(v*86400) - 2209161600` in wrapping `uint64`
arithmetic (`uint64(...)` truncates toward zero). -/
def convertDatetimeVal (q : Rat) : Except String Nat :=
  if q < 0 then .error "datetime value must be positive"
  else .ok (usub (u64ofRat (q * 86400)) 2209161600)

/-- Model of uploader `convertDatetime` from the raw cell text. -/
def convertDatetimeUp (s : String) : Except String Nat :=
  match simpleParseFloat s with
  | none => .error "unable to convert to float64"
  | some q => convertDatetimeVal q

/-- Model of uploader `convertTimestamp` on the parsed value: reject
negative input, then `uint64(v*86400*1e6) - 2209161600000000` in wrapping
`uint64` arithmetic. -/
def convertTimestampVal (q : Rat) : Except String Nat :=
  if q < 0 then .error "datetime value must be positive"
  else .ok (usub (u64ofRat (q * 86400 * 1000000)) 2209161600000000)

/-- Model of uploader `convertTimestamp` from the raw cell text. -/
def convertTimestampUp (s : String) : Except String Nat :=
  match simpleParseFloat s with
  | none => .error "unable to convert to float64"
  | some q => convertTimestampVal q

/-! ## Excel column names (`excelize.ColumnNumberToName` / `ColumnNameToNumber`) -/

/-- Excel's hard cap on columns (`ExcelMaxColCount`/`MaxColumns`). -/
def excelMaxColCount : Nat := 16384

/-- Bijective base-26 expansion of a positive column number (fuelled). -/
def colNameCore : Nat → Nat → List Char
  | 0, _ => []
  | fuel + 1, n =>
    if n = 0 then []
    else colNameCore fuel ((n - 1) / 26) ++ [Char.ofNat (65 + (n - 1) % 26)]

/-- Model of `excelize.ColumnNumberToName`: errors for nonpositive numbers
and numbers beyond the column cap. -/
def colNumberToName (n : Nat) : Except String String :=
  if n < 1 then .error "invalid column number"
  else if excelMaxColCount < n then .error "column number exceeds maximum limit"
  else .ok (String.mk (colNameCore n n))

/-- Column name as the row loops use it: `excelize.ColumnNumberToName` with
its error ignored, which leaves the empty name. -/
def colNameStr (n : Nat) : String :=
  match colNumberToName n with
  | .ok s => s
  | .error _ => ""

/-- Letter value for `ColumnNameToNumber` (case-insensitive); `none` for a
non-letter. -/
def colLetterVal (c : Char) : Option Nat :=
  if 'A' ≤ c && c ≤ 'Z' then some (c.toNat - 64)
  else if 'a' ≤ c && c ≤ 'z' then some (c.toNat - 96)
  else none

/-- Accumulate bijective base-26 letters. -/
def colNumCore : List Char → Nat → Option Nat
  | [], acc => some acc
  | c :: cs, acc =>
    match colLetterVal c with
    | none => none
    | some v => colNumCore cs (acc * 26 + v)

/-- Model of `excelize.ColumnNameToNumber`: letters only, non-empty, with
the column cap enforced. -/
def colNameToNumber (s : String) : Except String Nat :=
  if s.data = [] then .error "invalid column name"
  else match colNumCore s.data 0 with
    | none => .error "invalid column name"
    | some n => if excelMaxColCount < n then .error "column number exceeds maximum limit" else .ok n

/-! ## Uploader: schema inference (`MakeSchema`, `GetColumnType`) -/

/-- A schema column (`schema.Column` restricted to the fields the uploader
reads: name, type, required flag). -/
structure UCol where
  name : String
  typ : String
  required : Bool
  deriving DecidableEq, Repr

/-- ASCII whitespace recognizer for `strings.TrimSpace`. -/
def isSpaceCh (c : Char) : Bool := c = ' ' || c = '\t' || c = '\n' || c = '\r'

/-- Model of `strings.TrimSpace` (the type tokens of interest are ASCII). -/
def trimSpace (s : String) : String :=
  String.mk (((s.data.dropWhile isSpaceCh).reverse.dropWhile isSpaceCh).reverse)

/-- Model of `GetColumnType`: `schema.Type.UnmarshalText` of the trimmed
token. In the client library the unmarshaller simply adopts the token and
never reports an error — the repository's own test pins
`GetColumnType("some-bad-type") = (Type("some-bad-type"), nil)` — so this
model is total and cannot fail. -/
def getColumnType (typeStr : String) : String := trimSpace typeStr

/-- Association-list upsert with Go map semantics: the last write to a key
wins. Go map iteration order is unspecified; this model determinizes it to
insertion order, which no modelled claim depends on. -/
def upsert {β : Type} (m : List (String × β)) (k : String) (v : β) : List (String × β) :=
  if m.any (fun p => p.1 = k) then m.map (fun p => if p.1 = k then (k, v) else p)
  else m ++ [(k, v)]

/-- Multi-valued association append (`map[string][]T` with `append`). -/
def multiAdd {β : Type} (m : List (String × List β)) (k : String) (v : β) :
    List (String × List β) :=
  if m.any (fun p => p.1 = k) then m.map (fun p => if p.1 = k then (p.1, p.2 ++ [v]) else p)
  else m ++ [(k, [v])]

/-- Lookup in an association list. -/
def alookup {β : Type} (m : List (String × β)) (k : String) : Option β :=
  (m.find? (fun p => p.1 = k)).map (fun p => p.2)

/-- An upload request, restricted to the fields the modelled control flow
reads. `columns` models the request's Go map `{yt column → excel column}`;
map keys are unique by construction in Go, which theorems assume where it
matters. `rows` is the sheet content in raw mode (row-major). -/
structure UReq where
  columns : List (String × String)
  header : Bool
  types : Bool
  create : Bool
  appendMode : Bool
  allRows : Bool
  startRow : Int
  rowCount : Int
  rows : List (List String)
  deriving Repr

/-- Upload-side errors. `ErrBadRequest.Wrap` is modelled by `badRequest`;
`errOptionalField` by `optionalField`; unwrapped errors by `other`. -/
inductive UpErr where
  | badRequest (s : String)
  | unauthorized (s : String)
  | other (s : String)
  | optionalField
  deriving DecidableEq, Repr

/-- The `len(req.Columns) != 0` branch of `MakeSchema`: resolve each excel
letter to its number, sort the YT names by that number (`sort.Slice`), and
give every column type `any`. Returns the columns together with the
`excelColToYTCols` index. -/
def inferColsFromMapping (columns : List (String × String)) :
    Except UpErr (List UCol × List (String × List String)) := do
  let e2y := columns.foldl (fun m p => multiAdd m p.2 p.1) []
  let withNums ← columns.mapM (fun p =>
    match colNameToNumber p.2 with
    | .error e => .error (UpErr.other ("invalid column name " ++ p.2 ++ ": " ++ e))
    | .ok n => .ok (p.1, n))
  let sorted := withNums.insertionSort (fun a b => a.2 ≤ b.2)
  .ok (sorted.map (fun p => ⟨p.1, "any", false⟩), e2y)

/-- The first-row branch of `MakeSchema`: every non-empty cell becomes a
column (named by the cell under `header`, by the excel letter otherwise). -/
def inferColsRowCore (header : Bool) :
    List String → Nat → List UCol → List (String × List String) →
    Except UpErr (List UCol × List (String × List String))
  | [], _, cols, e2y => .ok (cols, e2y)
  | nameCell :: rest, i, cols, e2y =>
    match colNumberToName (i + 1) with
    | .error e => .error (.other e)
    | .ok excelCol =>
      if nameCell = "" then inferColsRowCore header rest (i + 1) cols e2y
      else
        let nm := if header then nameCell else excelCol
        inferColsRowCore header rest (i + 1) (cols ++ [⟨nm, "any", false⟩])
          (multiAdd e2y excelCol nm)

/-- The type-row loop of `MakeSchema`: each cell is parsed with
`GetColumnType` (which cannot fail) and assigned to every YT column mapped
to that excel column. -/
def typeRowAssign (e2y : List (String × List String)) :
    List UCol → List String → Nat → Except UpErr (List UCol)
  | cols, [], _ => .ok cols
  | cols, typeStr :: rest, i =>
    match colNumberToName (i + 1) with
    | .error e => .error (.other e)
    | .ok excelCol =>
      let t := getColumnType typeStr
      let cols' :=
        match alookup e2y excelCol with
        | none => cols
        | some names => cols.map (fun c => if names.contains c.name then { c with typ := t } else c)
      typeRowAssign e2y cols' rest (i + 1)

/-- Model of `MakeSchema`. Row 1/row 2 reads that fail in Go produce
wrapped `ErrBadRequest` errors, kept here. -/
def makeSchema (req : UReq) : Except UpErr (List UCol) := do
  let ce ←
    if req.columns ≠ [] then inferColsFromMapping req.columns
    else
      match req.rows.head? with
      | none => .error (.badRequest "unable to read first row of sheet")
      | some row => inferColsRowCore req.header row 0 [] []
  let typeRow ←
    if req.types then
      if req.header then
        match req.rows.get? 1 with
        | none => .error (.badRequest "unable to read second row of sheet")
        | some r => .ok r
      else
        match req.rows.head? with
        | none => .error (.badRequest "unable to read first row of sheet")
        | some r => .ok r
    else .ok []
  if 0 < typeRow.length then typeRowAssign ce.2 ce.1 typeRow 0 else .ok ce.1

/-! ## Uploader: column-mapping resolution (`MakeColumnMapping`) -/

/-- Header-based mapping (`makeColumnMappingFromHeader`): first-row cells
whose text is a schema column name are mapped to their letter. -/
def mappingFromHeaderCore (schemaNames : List String) :
    List String → Nat → List (String × String) → Except UpErr (List (String × String))
  | [], _, m => .ok m
  | cell :: rest, i, m =>
    match colNumberToName (i + 1) with
    | .error e => .error (.other e)
    | .ok name =>
      if schemaNames.contains cell then
        mappingFromHeaderCore schemaNames rest (i + 1) (upsert m cell name)
      else mappingFromHeaderCore schemaNames rest (i + 1) m

/-- Positional mapping (`makeDefaultColumnMapping`): schema column `i` maps
to excel column `i+1`. -/
def mappingDefaultCore : List UCol → Nat → List (String × String) →
    Except UpErr (List (String × String))
  | [], _, m => .ok m
  | c :: rest, i, m =>
    match colNumberToName (i + 1) with
    | .error e => .error (.other e)
    | .ok name => mappingDefaultCore rest (i + 1) (upsert m c.name name)

/-- Model of `MakeColumnMapping`. -/
def resolveMapping (req : UReq) (s : List UCol) : Except UpErr (List (String × String)) :=
  if req.header then
    match req.rows.head? with
    | none => .error (.badRequest "unable to read first row of sheet")
    | some row => mappingFromHeaderCore (s.map UCol.name) row 0 []
  else mappingDefaultCore s 0 []

/-! ## Uploader: per-cell decoding (`convert`) and the row loop (`upload`) -/

/-- A decoded value as handed to the table writer. -/
inductive UVal where
  | int (z : Int)
  | nat (n : Nat)
  | float (q : Rat)
  | bool (b : Bool)
  | str (s : String)
  | bytes (s : String)
  | anyRaw (s : String)
  deriving DecidableEq, Repr

/-- Model of `strconv.ParseBool`. -/
def goParseBool (s : String) : Except String Bool :=
  if s = "1" ∨ s = "t" ∨ s = "T" ∨ s = "TRUE" ∨ s = "true" ∨ s = "True" then .ok true
  else if s = "0" ∨ s = "f" ∨ s = "F" ∨ s = "FALSE" ∨ s = "false" ∨ s = "False" then .ok false
  else .error "invalid syntax"

/-- Model of uploader `convert`: empty text for a non-required column
signals `optionalField`; otherwise the raw text is parsed per schema type.
The `any` branch collapses the yson-parse-or-raw fallback to the raw text
(no modelled claim depends on the parsed structure). -/
def upConvert (value : String) (c : UCol) : Except UpErr UVal :=
  if value = "" ∧ ¬c.required then .error .optionalField
  else if c.typ = "int64" ∨ c.typ = "int32" ∨ c.typ = "int16" ∨ c.typ = "int8" then
    match goParseInt (if c.typ = "int64" then 64 else if c.typ = "int32" then 32
      else if c.typ = "int16" then 16 else 8) value with
    | .error e => .error (.other e)
    | .ok z => .ok (.int z)
  else if c.typ = "uint64" ∨ c.typ = "uint32" ∨ c.typ = "uint16" ∨ c.typ = "uint8" then
    match goParseUint64 value with
    | .error e => .error (.other e)
    | .ok n =>
      let bound : Nat := if c.typ = "uint64" then 2 ^ 64 else if c.typ = "uint32" then 2 ^ 32
        else if c.typ = "uint16" then 2 ^ 16 else 2 ^ 8
      if n < bound then .ok (.nat n) else .error (.other "value out of range")
  else if c.typ = "float" ∨ c.typ = "double" then
    match simpleParseFloat value with
    | none => .error (.other "invalid float syntax")
    | some q => .ok (.float q)
  else if c.typ = "boolean" then
    match goParseBool value with
    | .error e => .error (.other e)
    | .ok b => .ok (.bool b)
  else if c.typ = "string" then .ok (.bytes value)
  else if c.typ = "utf8" then .ok (.str value)
  else if c.typ = "any" then .ok (.anyRaw value)
  else if c.typ = "date" then
    match convertDateUp value with
    | .error e => .error (.other e)
    | .ok n => .ok (.nat n)
  else if c.typ = "datetime" then
    match convertDatetimeUp value with
    | .error e => .error (.other e)
    | .ok n => .ok (.nat n)
  else if c.typ = "timestamp" then
    match convertTimestampUp value with
    | .error e => .error (.other e)
    | .ok n => .ok (.nat n)
  else if c.typ = "interval" then
    match goParseInt 64 value with
    | .error e => .error (.other e)
    | .ok z => .ok (.int z)
  else .error (.other ("unexpected type " ++ c.typ))

/-- `columnToIndex` lookup: last schema index with the given name, with
Go's zero value 0 for a missing key. -/
def columnToIndex (s : List UCol) (n : String) : Nat :=
  s.enum.foldl (fun acc p => if p.2.name = n then p.1 else acc) 0

/-- `excelColToYTCols` of the `upload` loop: excel letter to the schema
indexes of every YT column mapped to it. -/
def excelColToIdxs (s : List UCol) (mapping : List (String × String)) :
    List (String × List Nat) :=
  mapping.foldl (fun m p => multiAdd m p.2 (columnToIndex s p.1)) []

/-- Build one destination record from a raw row (the inner loop of
`upload`): skip cells with no mapped column, skip `optionalField` signals,
wrap any decode failure as BadRequest naming value, letter and type. -/
def buildRecordCore (s : List UCol) (e2i : List (String × List Nat)) :
    List String → Nat → List (String × UVal) → Except UpErr (List (String × UVal))
  | [], _, m => .ok m
  | v :: rest, j, m =>
    let name := colNameStr (j + 1)
    match alookup e2i name with
    | none => buildRecordCore s e2i rest (j + 1) m
    | some idxs => do
      let m' ← idxs.foldlM (fun acc idx =>
        match s.get? idx with
        | none => .ok acc
        | some col =>
          match upConvert v col with
          | .error .optionalField => .ok acc
          | .error _ =>
            .error (.badRequest ("unable to convert " ++ v ++ " (column " ++ name ++ ") to " ++
              col.typ))
          | .ok uv => .ok (upsert acc col.name uv)) m
      buildRecordCore s e2i rest (j + 1) m'

/-- The sheet-row loop of `upload`: 1-based row index, empty rows skipped,
rows before the range skipped, iteration stopped at the range end. -/
def uploadRowsCore (req : UReq) (s : List UCol) (e2i : List (String × List Nat)) :
    List (List String) → Nat → Except UpErr (List (List (String × UVal)))
  | [], _ => .ok []
  | row :: rest, i =>
    if row = [] then uploadRowsCore req s e2i rest (i + 1)
    else if ¬req.allRows ∧ (i : Int) < req.startRow then uploadRowsCore req s e2i rest (i + 1)
    else if ¬req.allRows ∧ req.startRow + req.rowCount ≤ (i : Int) then .ok []
    else do
      let m ← buildRecordCore s e2i row 0 []
      let out ← uploadRowsCore req s e2i rest (i + 1)
      .ok (m :: out)

/-! ## Uploader: the `Upload` control flow

`Upload` runs inside one store transaction with `defer tx.Abort()`:
whatever the inner steps did — including table creation in create mode —
is visible afterwards only when the final commit succeeds. The model makes
that contract explicit: the cluster state for the destination path is a
`Option Table` (absent or present), the body computes a candidate new
state, and any error leaves the initial state untouched. -/

/-- Destination table: its schema and its committed rows. -/
structure Table where
  schem : List UCol
  rows : List (List (String × UVal))
  deriving DecidableEq, Repr

/-- The canonical type tokens of the client library's `schema.Type`
(pinned by the repository's `GetColumnType` test table). -/
def canonicalTypes : List String :=
  ["int64", "int32", "int16", "int8", "uint64", "uint32", "uint16", "uint8",
   "float", "double", "boolean", "string", "utf8", "any",
   "date", "datetime", "timestamp", "interval"]

/-- Modelled from the spec: `yt.CreateTable` (the master side of create) is
outside this repository; per §9 of the spec and the repository's
`bad-type-row` test, creating a table whose schema carries an unrecognised
type token fails (with an error that is not a BadRequest of this service),
as does creating over an existing node. -/
def createTableModel (st : Option Table) (s : List UCol) : Except UpErr (Option Table) :=
  if s.all (fun c => canonicalTypes.contains c.typ) then
    match st with
    | some _ => .error (.other "node already exists")
    | none => .ok (some ⟨s, []⟩)
  else .error (.other "invalid type in table schema")

/-- Steps 3–4 of `Upload`: optional create-inside-transaction followed by
the schema read; a missing destination is the resolve error, classified
BadRequest. -/
def uploadSchemaStage (st : Option Table) (req : UReq) : Except UpErr Table := do
  let st1 ←
    if req.create then
      match makeSchema req with
      | .error e => .error e
      | .ok s => createTableModel st s
    else .ok st
  match st1 with
  | none => .error (.badRequest "error reading schema: resolve error")
  | some t => .ok t

/-- Step 5 of `Upload`: the explicit mapping is used verbatim when present,
otherwise `MakeColumnMapping` resolves one. -/
def uploadMappingStage (req : UReq) (s : List UCol) : Except UpErr (List (String × String)) :=
  if req.columns = [] then resolveMapping req s else .ok req.columns

/-- Model of `Upload`: create (optionally), read schema, resolve the
mapping when absent, enforce the two column guards, decode and write the
rows, commit. The returned state is the committed view: on any error the
transaction aborts and the initial state is returned unchanged. -/
def uploadStep (st : Option Table) (req : UReq) : Option Table × Except UpErr Unit :=
  let res : Except UpErr Table := do
    let tbl ← uploadSchemaStage st req
    let s := tbl.schem
    let mapping ← uploadMappingStage req s
    if mapping.length ≠ s.length then
      .error (.badRequest ("schema has " ++ toString s.length ++ " column(s), request - " ++
        toString mapping.length))
    else if excelMaxColCount < mapping.length then
      .error (.badRequest "exceeding max number of excel columns 16384")
    else do
      let written ← uploadRowsCore req s (excelColToIdxs s mapping) req.rows 1
      .ok ⟨s, (if req.appendMode then tbl.rows else []) ++ written⟩
  match res with
  | .ok t => (some t, .ok ())
  | .error e => (st, .error e)

/-! ## Spec-side reference definitions

These definitions follow the words of the specification (not the source)
and exist to be compared with the source-derived definitions above. -/

/-- Remove the first decimal point, wherever it occurs (the reference
reading of "strip … a single decimal point" in the spec's
`fits_in_number` rule). -/
def eraseFirstDot : List Char → List Char
  | [] => []
  | c :: cs => if c = '.' then cs else c :: eraseFirstDot cs

/-- The spec's `fits_in_number` reference rule: strip the sign, leading
zeros, a single decimal point wherever it occurs, and trailing zeros; at
most 15 characters may remain. -/
def specFits (cs : List Char) : Bool :=
  (dropTrailingZeros (eraseFirstDot (dropLeadingZeros (dropSign cs)))).length ≤ 15

/-- Representations on which the decimal point (if any) immediately leads
the remainder once sign and leading zeros are stripped — i.e. no interior
decimal point. -/
def noInteriorDot (cs : List Char) : Bool :=
  match dropLeadingZeros (dropSign cs) with
  | [] => true
  | _ :: rest => rest.all (fun x => x ≠ '.')

/-- Spec-side ISO-8601 rendering of an instant `v` microseconds after the
unix epoch, with the six-digit microsecond fraction carrying its trailing
zeros trimmed (the behaviour of Go's `.999999` directive). -/
def isoOfMicros (v : Nat) : String :=
  let secs := v / 1000000
  let c := civilFromDays ((secs / 86400 : Nat) : Int)
  isoRender c.1 c.2.1 c.2.2 (secs / 3600 % 24) (secs / 60 % 60) (secs % 60) (v % 1000000)

/-- The claim's literal `yyyy-MM-ddTHH:mm:ss.ffffffZ` form: exactly six
fractional digits, zero-padded. -/
def isoOfMicrosFixed6 (v : Nat) : String :=
  let secs := v / 1000000
  let c := civilFromDays ((secs / 86400 : Nat) : Int)
  String.mk (pad4Year c.1 ++ '-' :: pad2 c.2.1 ++ '-' :: pad2 c.2.2 ++
    'T' :: pad2 (secs / 3600 % 24) ++ ':' :: pad2 (secs / 60 % 60) ++ ':' :: pad2 (secs % 60) ++
    '.' :: padLeftZeros 6 (natRepr (v % 1000000)) ++ ['Z'])

/-- Signed decimal value of a numeral, the parse-back reading of
"the decimal string of v". -/
def decValInt (cs : List Char) : Int :=
  match cs with
  | [] => 0
  | c :: ds => if c = '-' then -(digitsVal ds : Int) else (digitsVal cs : Int)

/-- Spec-side weight of one output cell: 8 bytes per integer or double,
1 per boolean, the octet length per string, 0 per absent cell. -/
def cellWeightSpec (v : Option Cell) : Nat :=
  match v with
  | none => 0
  | some ⟨_, .int _⟩ => 8
  | some ⟨_, .float _⟩ => 8
  | some ⟨_, .bool _⟩ => 1
  | some ⟨_, .str bs⟩ => bs.length

/-- Spec-side running size check: walk the per-row weights keeping a
counter; report the counter value at the first row where it reaches the
limit, `none` when the whole list stays below it. -/
def specWeightCheck (weights : List Nat) (maxSize acc : Nat) : Option Nat :=
  match weights with
  | [] => none
  | w :: ws => if maxSize ≤ acc + w then some (acc + w) else specWeightCheck ws maxSize (acc + w)

/-! ## Properties of the decimal rendering -/

theorem digitsValCore_append (xs ys : List Char) (acc : Nat) :
    digitsValCore (xs ++ ys) acc = digitsValCore ys (digitsValCore xs acc) := by
  induction xs generalizing acc with
  | nil => rfl
  | cons c cs ih => simp [digitsValCore, ih]

theorem digitChar_toNat (n : Nat) (h : n < 10) : (digitChar n).toNat = 48 + n := by
  interval_cases n <;> decide

theorem digitsCore_val (fuel : Nat) : ∀ n : Nat, n < 10 ^ fuel →
    digitsVal (digitsCore fuel n) = n := by
  induction fuel with
  | zero =>
    intro n h
    simp only [pow_zero, Nat.lt_one_iff] at h
    simp [h, digitsCore, digitsVal, digitsValCore]
  | succ fuel ih =>
    intro n h
    by_cases h10 : n < 10
    · simp [digitsCore, h10, digitsVal, digitsValCore, digitChar_toNat n h10]
    · have hdiv : n / 10 < 10 ^ fuel := by
        rw [Nat.div_lt_iff_lt_mul (by norm_num)]
        calc n < 10 ^ (fuel + 1) := h
          _ = 10 ^ fuel * 10 := by ring
      have hval := ih (n / 10) hdiv
      simp only [digitsCore, h10, if_false, digitsVal] at hval ⊢
      rw [digitsValCore_append]
      simp only [digitsValCore]
      rw [hval, digitChar_toNat (n % 10) (Nat.mod_lt n (by norm_num))]
      omega

theorem digitsVal_natRepr (n : Nat) : digitsVal (natRepr n) = n :=
  digitsCore_val (n + 1) n (lt_of_lt_of_le (Nat.lt_pow_self (by norm_num) n)
    (Nat.pow_le_pow_right (by norm_num) (Nat.le_succ n)))

theorem digitsCore_length_le (fuel : Nat) : ∀ n k : Nat, 1 ≤ k → n < 10 ^ k →
    (digitsCore fuel n).length ≤ k := by
  induction fuel with
  | zero => intro n k _ _; simp [digitsCore]
  | succ fuel ih =>
    intro n k hk h
    by_cases h10 : n < 10
    · simpa [digitsCore, h10] using hk
    · have hk2 : 2 ≤ k := by
        by_contra hlt
        have hk1 : k = 1 := by omega
        subst hk1
        rw [pow_one] at h
        omega
      have hdiv : n / 10 < 10 ^ (k - 1) := by
        rw [Nat.div_lt_iff_lt_mul (by norm_num)]
        calc n < 10 ^ k := h
          _ = 10 ^ (k - 1) * 10 := by
            rw [← pow_succ]
            congr 1
            omega
      have := ih (n / 10) (k - 1) (by omega) hdiv
      simp only [digitsCore, h10, if_false, List.length_append, List.length_cons,
        List.length_nil]
      omega

theorem natRepr_length_le (n k : Nat) (hk : 1 ≤ k) (h : n < 10 ^ k) :
    (natRepr n).length ≤ k :=
  digitsCore_length_le (n + 1) n k hk h

theorem digitsCore_all_digits (fuel : Nat) : ∀ n : Nat,
    (digitsCore fuel n).all isDigitCh = true := by
  induction fuel with
  | zero => intro n; rfl
  | succ fuel ih =>
    intro n
    by_cases h10 : n < 10
    · have := digitChar_toNat n h10
      simp [digitsCore, h10, isDigitCh, this]
      omega
    · have h9 : n % 10 < 10 := Nat.mod_lt n (by norm_num)
      have := digitChar_toNat (n % 10) h9
      simp [digitsCore, h10, List.all_append, ih (n / 10), isDigitCh, this]
      omega

theorem natRepr_ne_nil (n : Nat) : natRepr n ≠ [] := by
  unfold natRepr digitsCore
  split <;> simp

theorem decValInt_intRepr (z : Int) : decValInt (intRepr z) = z := by
  by_cases hz : z < 0
  · simp only [intRepr, hz, if_true, decValInt, if_pos rfl, digitsVal_natRepr]
    omega
  · simp only [intRepr, hz, if_false]
    obtain ⟨c, ds, hcd⟩ := List.exists_cons_of_ne_nil (natRepr_ne_nil z.natAbs)
    have hdig : isDigitCh c = true := by
      have hall := digitsCore_all_digits (z.natAbs + 1) z.natAbs
      rw [show digitsCore (z.natAbs + 1) z.natAbs = natRepr z.natAbs from rfl, hcd] at hall
      simp only [List.all_cons, Bool.and_eq_true] at hall
      exact hall.1
    have hne : c ≠ '-' := by
      intro hc
      rw [hc] at hdig
      simp [isDigitCh] at hdig
    rw [hcd, decValInt, if_neg hne, ← hcd, digitsVal_natRepr]
    omega

/-! ## C1: int64/uint64/interval precision modes -/

/-- C1: for every int64/uint64 (and interval) value, `convert` encodes a
fitting value as the native integer with Number style under every mode;
a non-fitting value fails under mode `error` with an error citing the
offending value (the message embeds the value's decimal numeral, which
parses back to the value), is emitted as its decimal string with no style
under mode `string`, and is emitted as the native integer with Number
style under mode `lose`. `int64`, `uint64` and `interval` all dispatch to
the same large-integer rule. -/
theorem c1_large_integer_modes (mode : String) (z : Int) :
    (fitsInNumberInt z = true →
      convertLargeIntegers mode z = .ok ⟨some .number, .int z⟩) ∧
    (fitsInNumberInt z = false →
      convertLargeIntegers "error" z =
        .error (.msg ("can not fit " ++ String.mk (intRepr z) ++
          " in excel; use another handle of long numbers")) ∧
      convertLargeIntegers "string" z = .ok ⟨none, .str ((intRepr z).map Char.toNat)⟩ ∧
      decValInt (intRepr z) = z ∧
      convertLargeIntegers "lose" z = .ok ⟨some .number, .int z⟩) ∧
    exConvert mode "int64" (.int z) = convertLargeIntegers mode z ∧
    exConvert mode "uint64" (.int z) = convertLargeIntegers mode z ∧
    exConvert mode "interval" (.int z) = convertLargeIntegers mode z := by
  refine ⟨fun hfit => ?_, fun hfit => ⟨?_, ?_, decValInt_intRepr z, ?_⟩, rfl, rfl, rfl⟩ <;>
    simp [convertLargeIntegers, convertSmallIntegers, hfit]

/-- Witness for C1 at the spec's own example value 4291747199999999 (16
significant digits, does not fit) and at 7 (fits). -/
theorem c1_large_integer_modes_witness :
    convertLargeIntegers "string" 4291747199999999 =
      .ok ⟨none, .str ((intRepr 4291747199999999).map Char.toNat)⟩ ∧
    convertLargeIntegers "lose" 7 = .ok ⟨some .number, .int 7⟩ :=
  ⟨((c1_large_integer_modes "string" 4291747199999999).2.1 (by decide)).2.1,
   (c1_large_integer_modes "lose" 7).1 (by decide)⟩

/-! ## C2: `fitsInNumber` versus the spec's reference rule

The source strips a decimal point only when it leads the string once sign
and leading zeros are gone (`strings.TrimPrefix(s, ".")`); the reference
rule of the spec strips the point wherever it occurs. The two disagree on
every representation with ≥ 15 significant digits around an interior
point. -/

theorem dropLeadingDot_cons (c : Char) (cs : List Char) (h : c ≠ '.') :
    dropLeadingDot (c :: cs) = c :: cs := by
  unfold dropLeadingDot
  split
  · rename_i heq
    injection heq with h1 _
    exact absurd h1 h
  · rfl

theorem eraseFirstDot_no_dot (l : List Char) (h : l.all (fun x => x ≠ '.') = true) :
    eraseFirstDot l = l := by
  induction l with
  | nil => rfl
  | cons c cs ih =>
    simp only [List.all_cons, Bool.and_eq_true, decide_eq_true_eq] at h
    simp [eraseFirstDot, h.1, ih h.2]

/-- C2 counterexample: on `123.456789012345` — fifteen significant digits
split around an interior decimal point — the source's `fitsInNumber`
answers `false` (the point survives the pipeline and counts toward the 15
characters) while the spec's reference rule answers `true`. -/
theorem c2_counterexample :
    fitsCore "123.456789012345".data = false ∧
    specFits "123.456789012345".data = true := by
  constructor <;> decide

/-- C2 (amended): `fitsInNumber` agrees with the reference rule exactly on
the representations without an interior decimal point, i.e. whenever the
decimal point — if present at all — immediately leads the remainder after
the sign and the leading zeros are stripped. -/
theorem c2_fits_agrees_without_interior_dot (cs : List Char)
    (h : noInteriorDot cs = true) : fitsCore cs = specFits cs := by
  suffices hx : dropLeadingDot (dropLeadingZeros (dropSign cs)) =
      eraseFirstDot (dropLeadingZeros (dropSign cs)) by
    unfold fitsCore specFits
    rw [hx]
  unfold noInteriorDot at h
  rcases hr : dropLeadingZeros (dropSign cs) with _ | ⟨c, rest⟩
  · rfl
  · rw [hr] at h
    simp only at h
    by_cases hc : c = '.'
    · subst hc
      rfl
    · rw [dropLeadingDot_cons c rest hc]
      simp [eraseFirstDot, hc, eraseFirstDot_no_dot rest h]

/-- Witness for the amended C2 at `0.5` (leading decimal point after a
leading zero: both rules strip it and agree). -/
theorem c2_fits_agrees_witness :
    noInteriorDot "0.5".data = true ∧ fitsCore "0.5".data = specFits "0.5".data :=
  ⟨by decide, c2_fits_agrees_without_interior_dot "0.5".data (by decide)⟩

/-! ## C3: timestamp encoding -/

theorem goTimestampString_of_nat (v : Nat) :
    goTimestampString (v : Int) = isoOfMicros v := by
  simp only [goTimestampString, isoOfMicros]
  have h1 : (v : Int) / 86400000000 = ((v / 1000000 / 86400 : Nat) : Int) := by omega
  have h2 : ((v : Int) % 86400000000).toNat / 1000000 / 3600 = v / 1000000 / 3600 % 24 := by
    omega
  have h3 : ((v : Int) % 86400000000).toNat / 1000000 % 3600 / 60 = v / 1000000 / 60 % 60 := by
    omega
  have h4 : ((v : Int) % 86400000000).toNat / 1000000 % 60 = v / 1000000 % 60 := by omega
  have h5 : ((v : Int) % 86400000000).toNat % 1000000 = v % 1000000 := by omega
  rw [h1, h2, h3, h4, h5]

/-- C3 counterexample: at `v = 100` microseconds (`v mod 1000 ≠ 0`) the
code emits `1970-01-01T00:00:00.0001Z` — the `.999999` directive trims the
trailing zeros of the six-digit fraction — whereas the claim's literal
`yyyy-MM-ddTHH:mm:ss.ffffffZ` form is `1970-01-01T00:00:00.000100Z`. -/
theorem c3_counterexample :
    convertTimestampEx 100 = .ok ⟨none, .str (strBytes "1970-01-01T00:00:00.0001Z")⟩ ∧
    isoOfMicrosFixed6 100 = "1970-01-01T00:00:00.000100Z" ∧
    convertTimestampEx 100 ≠ .ok ⟨none, .str (strBytes (isoOfMicrosFixed6 100))⟩ := by
  refine ⟨by decide, by decide, by decide⟩

/-- C3 (amended): for every timestamp value below `2 ^ 63` (beyond which
the `int64` cast of the formatting path wraps), a value divisible by 1000
is encoded as the float `(v + 25569·86400·10^6) / 86400 / 10^6` with the
Timestamp style, and any other value is encoded as ISO-8601 text with no
style, where the fractional part is the six-digit microsecond field with
its trailing zeros trimmed. -/
theorem c3_timestamp_encoding (v : Nat) (hv : v < 2 ^ 63) :
    (v % 1000 = 0 →
      convertTimestampEx v =
        .ok ⟨some .timestamp, .float (((v : Rat) + 25569 * 86400 * 1000000) / 86400 / 1000000)⟩) ∧
    (v % 1000 ≠ 0 →
      convertTimestampEx v = .ok ⟨none, .str (strBytes (isoOfMicros v))⟩) := by
  constructor
  · intro hmod
    have hwrap : (v + 2209161600000000) % 2 ^ 64 = v + 2209161600000000 := by omega
    have hcast : ((v + 2209161600000000 : Nat) : Rat) = (v : Rat) + 25569 * 86400 * 1000000 := by
      push_cast
      ring
    simp only [convertTimestampEx, hmod, if_true, hwrap, hcast]
  · intro hmod
    have ht : toInt64 v = (v : Int) := by
      unfold toInt64
      rw [if_pos hv]
    simp only [convertTimestampEx, hmod, if_false, ht, goTimestampString_of_nat]

/-- Witness for the amended C3: the millisecond-aligned value 1000 becomes
a styled serial float, and the spec's scenario-7 value 976616537302001
(`2000-12-12T10:22:17.302001Z`) becomes unstyled text. -/
theorem c3_timestamp_encoding_witness :
    convertTimestampEx 1000 =
      .ok ⟨some .timestamp, .float (((1000 : Rat) + 25569 * 86400 * 1000000) / 86400 / 1000000)⟩ ∧
    convertTimestampEx 976616537302001 =
      .ok ⟨none, .str (strBytes (isoOfMicros 976616537302001))⟩ :=
  ⟨(c3_timestamp_encoding 1000 (by norm_num)).1 (by norm_num),
   (c3_timestamp_encoding 976616537302001 (by norm_num)).2 (by norm_num)⟩

/-! ## C4: upload datetime/timestamp decoding -/

/-- C4 counterexample: the text `0.00390625` parses exactly to `1/256`
(a dyadic on which the Go float computation is exact), whose day-seconds
product is `337.5`. The code truncates (`uint64(v*86400)` = 337) before the
epoch shift, whereas the claim's `round` gives 338; the produced unsigned
value differs from the claimed one by one. -/
theorem c4_counterexample :
    simpleParseFloat "0.00390625" = some ((1 : Rat) / 256) ∧
    ((1 : Rat) / 256) * 86400 = (675 : Rat) / 2 ∧
    round (((1 : Rat) / 256) * 86400) = 338 ∧
    convertDatetimeUp "0.00390625" = .ok 18446744071500390353 ∧
    (((round (((1 : Rat) / 256) * 86400) - 25569 * 86400 : Int) % (2 ^ 64)).toNat =
      18446744071500390354) ∧
    convertDatetimeUp "0.00390625" ≠
      .ok (((round (((1 : Rat) / 256) * 86400) - 25569 * 86400 : Int) % (2 ^ 64)).toNat) := by
  have hparts : parseDecParts "0.00390625" = some (false, 0, 390625, 8) := by decide
  have hparse : simpleParseFloat "0.00390625" = some ((1 : Rat) / 256) := by
    rw [simpleParseFloat, hparts, Option.map_some']
    norm_num
  have hround : round (((1 : Rat) / 256) * 86400) = 338 := by
    rw [round_eq, show ((1 : Rat) / 256) * 86400 + 1 / 2 = ((338 : Int) : Rat) by norm_num,
      Int.floor_intCast]
  have hfloor : ⌊((1 : Rat) / 256) * 86400⌋ = 337 := by
    rw [Int.floor_eq_iff]
    norm_num
  have hval : convertDatetimeUp "0.00390625" = .ok 18446744071500390353 := by
    unfold convertDatetimeUp
    rw [hparse]
    show convertDatetimeVal ((1 : Rat) / 256) = _
    unfold convertDatetimeVal
    rw [if_neg (by norm_num : ¬((1 : Rat) / 256 < 0))]
    unfold usub u64ofRat
    rw [hfloor]
    decide
  have hemod : ((338 - 25569 * 86400 : Int) % (2 ^ 64)).toNat = 18446744071500390354 := by
    omega
  refine ⟨hparse, by norm_num, hround, hval, ?_, ?_⟩
  · rw [hround]
    exact hemod
  · rw [hround, hval, hemod]
    decide

/-- C4 (amended): for every cell text parsing to a float value `q`, the
datetime decoder yields `⌊q·86400⌋ − 25569·86400` and the timestamp
decoder `⌊q·86400·10^6⌋ − 25569·86400·10^6`, both as unsigned 64-bit
values (the fractional-day product is truncated toward zero — Go's
float-to-uint64 conversion — not rounded, before the wrapping epoch-shift
subtraction); negative values are rejected with an error. -/
theorem c4_datetime_timestamp_decode (s : String) (q : Rat)
    (hs : simpleParseFloat s = some q) :
    (0 ≤ q →
      convertDatetimeUp s =
        .ok ((((⌊q * 86400⌋ - 25569 * 86400 : Int) % (2 ^ 64)).toNat)) ∧
      convertTimestampUp s =
        .ok ((((⌊q * 86400 * 1000000⌋ - 25569 * 86400 * 1000000 : Int) % (2 ^ 64)).toNat))) ∧
    (q < 0 →
      convertDatetimeUp s = .error "datetime value must be positive" ∧
      convertTimestampUp s = .error "datetime value must be positive") := by
  constructor
  · intro hq
    have hF1 : 0 ≤ ⌊q * 86400⌋ := Int.floor_nonneg.mpr (by positivity)
    have hF2 : 0 ≤ ⌊q * 86400 * 1000000⌋ := Int.floor_nonneg.mpr (by positivity)
    constructor
    · unfold convertDatetimeUp
      rw [hs]
      show convertDatetimeVal q = _
      unfold convertDatetimeVal
      rw [if_neg (not_lt.mpr hq)]
      unfold usub u64ofRat
      refine congrArg Except.ok ?_
      generalize ⌊q * 86400⌋ = F at hF1
      omega
    · unfold convertTimestampUp
      rw [hs]
      show convertTimestampVal q = _
      unfold convertTimestampVal
      rw [if_neg (not_lt.mpr hq)]
      unfold usub u64ofRat
      refine congrArg Except.ok ?_
      generalize ⌊q * 86400 * 1000000⌋ = F at hF2
      omega
  · intro hq
    constructor
    · unfold convertDatetimeUp
      rw [hs]
      show convertDatetimeVal q = _
      unfold convertDatetimeVal
      rw [if_pos hq]
    · unfold convertTimestampUp
      rw [hs]
      show convertTimestampVal q = _
      unfold convertTimestampVal
      rw [if_pos hq]

/-- Witness for the amended C4 at the text `0.00390625` (value `1/256`). -/
theorem c4_datetime_timestamp_decode_witness :
    convertDatetimeUp "0.00390625" =
      .ok ((((⌊((1 : Rat) / 256) * 86400⌋ - 25569 * 86400 : Int) % (2 ^ 64)).toNat)) ∧
    convertTimestampUp "0.00390625" =
      .ok ((((⌊((1 : Rat) / 256) * 86400 * 1000000⌋ -
        25569 * 86400 * 1000000 : Int) % (2 ^ 64)).toNat)) :=
  (c4_datetime_timestamp_decode "0.00390625" ((1 : Rat) / 256)
    (by
      rw [simpleParseFloat, show parseDecParts "0.00390625" = some (false, 0, 390625, 8) by decide,
        Option.map_some']
      norm_num)).1 (by norm_num)

/-! ## C10: upload date decoding below the epoch shift -/

/-- C10: for every cell text parsing to an unsigned integer below 25569,
the date decoder succeeds — the epoch-shift subtraction is unchecked
wrapping `uint64` arithmetic with no lower bound — and returns
`(v − 25569) mod 2^64`, a value within 25569 of `2^64`, i.e. far in the
future rather than an error. -/
theorem c10_date_underflow_wraps (s : String) (v : Nat)
    (hs : goParseUint64 s = .ok v) (hv : v < 25569) :
    convertDateUp s = .ok ((((v : Int) - 25569) % (2 ^ 64)).toNat) ∧
    2 ^ 64 - 25569 ≤ (((v : Int) - 25569) % (2 ^ 64)).toNat := by
  have hval : usub v 25569 = (((v : Int) - 25569) % (2 ^ 64)).toNat := by
    unfold usub
    omega
  constructor
  · unfold convertDateUp
    rw [hs]
    show Except.ok (usub v 25569) = _
    rw [hval]
  · rw [← hval]
    unfold usub
    omega

/-- Witness for C10 at the cell text `0` (excel serial 0, before 1970). -/
theorem c10_date_underflow_wraps_witness :
    convertDateUp "0" = .ok ((((0 : Nat) : Int) - 25569) % (2 ^ 64)).toNat ∧
    2 ^ 64 - 25569 ≤ ((((0 : Nat) : Int) - 25569) % (2 ^ 64)).toNat :=
  c10_date_underflow_wraps "0" 0 (by decide) (by norm_num)

/-! ## C5: unknown type tokens at schema-inference time -/

/-- C5 counterexample: the repository's own `bad-type-row` scenario.
`GetColumnType` adopts the unknown token `some-bad-type` without any
error, `MakeSchema` succeeds and embeds it in the inferred schema — so the
upload does not fail at schema-inference time; it fails only when the
downstream create-table (modelled from the spec) rejects the schema, with
an error that is not a BadRequest, and the table is absent afterwards. -/
theorem c5_counterexample :
    getColumnType "some-bad-type" = "some-bad-type" ∧
    makeSchema (⟨[], true, true, true, false, false, 3, 1048576,
        [["id", "age"], ["int64", "some-bad-type"], ["1", "18"]]⟩ : UReq) =
      .ok [⟨"id", "int64", false⟩, ⟨"age", "some-bad-type", false⟩] ∧
    (uploadStep none (⟨[], true, true, true, false, false, 3, 1048576,
        [["id", "age"], ["int64", "some-bad-type"], ["1", "18"]]⟩ : UReq)).2 =
      .error (.other "invalid type in table schema") ∧
    (uploadStep none (⟨[], true, true, true, false, false, 3, 1048576,
        [["id", "age"], ["int64", "some-bad-type"], ["1", "18"]]⟩ : UReq)).1 = none := by
  refine ⟨rfl, by decide, by decide, by decide⟩

theorem colNumberToName_ok (n : Nat) (h1 : 1 ≤ n) (h2 : n ≤ 16384) :
    ∃ s, colNumberToName n = .ok s := by
  unfold colNumberToName
  rw [if_neg (by omega), if_neg (by simp [excelMaxColCount]; omega)]
  exact ⟨_, rfl⟩

theorem inferColsRowCore_ok (header : Bool) (row : List String) :
    ∀ (i : Nat) (cols : List UCol) (e2y : List (String × List String)),
    i + row.length ≤ 16384 →
    ∃ out, inferColsRowCore header row i cols e2y = .ok out := by
  induction row with
  | nil => intro i cols e2y _; exact ⟨_, rfl⟩
  | cons cell rest ih =>
    intro i cols e2y hw
    simp only [List.length_cons] at hw
    obtain ⟨s, hs⟩ := colNumberToName_ok (i + 1) (by omega) (by omega)
    simp only [inferColsRowCore, hs]
    by_cases hc : cell = ""
    · rw [if_pos hc]
      exact ih (i + 1) cols e2y (by omega)
    · rw [if_neg hc]
      exact ih (i + 1) _ _ (by omega)

theorem typeRowAssign_ok (e2y : List (String × List String)) (row : List String) :
    ∀ (cols : List UCol) (i : Nat), i + row.length ≤ 16384 →
    ∃ out, typeRowAssign e2y cols row i = .ok out := by
  induction row with
  | nil => intro cols i _; exact ⟨cols, rfl⟩
  | cons cell rest ih =>
    intro cols i hw
    simp only [List.length_cons] at hw
    obtain ⟨s, hs⟩ := colNumberToName_ok (i + 1) (by omega) (by omega)
    simp only [typeRowAssign, hs]
    exact ih _ (i + 1) (by omega)

/-- C5 (amended): an unrecognised token in the type row does not make
schema inference fail: `GetColumnType` has no error to report (it adopts
the trimmed token as the type), and `MakeSchema` succeeds whenever the
header row and the type row exist and fit in the excel column cap —
whatever tokens the type row carries. The upload can then only fail later,
at create-table time, outside schema inference. -/
theorem c5_unknown_type_inference_succeeds (req : UReq) (r1 r2 : List String)
    (hcols : req.columns = []) (hh : req.header = true) (ht : req.types = true)
    (h1 : req.rows.head? = some r1) (h2 : req.rows.get? 1 = some r2)
    (hw1 : r1.length ≤ 16384) (hw2 : r2.length ≤ 16384) :
    ∃ out, makeSchema req = .ok out := by
  obtain ⟨ce, hce⟩ := inferColsRowCore_ok req.header r1 0 [] [] (by omega)
  rw [hh] at hce
  have hstep : makeSchema req =
      if 0 < r2.length then typeRowAssign ce.2 ce.1 r2 0 else .ok ce.1 := by
    simp only [makeSchema, hcols, ne_eq, not_true_eq_false, if_false, h1, hce, hh, ht, if_true,
      h2, bind, Except.bind]
  rw [hstep]
  by_cases hlen : 0 < r2.length
  · obtain ⟨out, hout⟩ := typeRowAssign_ok ce.2 r2 ce.1 0 (by omega)
    rw [if_pos hlen]
    exact ⟨out, hout⟩
  · rw [if_neg hlen]
    exact ⟨ce.1, rfl⟩

/-- Witness for the amended C5 at the `bad-type-row` input. -/
theorem c5_unknown_type_inference_succeeds_witness :
    ∃ out, makeSchema (⟨[], true, true, true, false, false, 3, 1048576,
        [["id", "age"], ["int64", "some-bad-type"], ["1", "18"]]⟩ : UReq) = .ok out :=
  c5_unknown_type_inference_succeeds _ ["id", "age"] ["int64", "some-bad-type"]
    rfl rfl rfl rfl rfl (by decide) (by decide)

/-! ## C6: the mapping-size guard of `Upload` -/

/-- C6 counterexample: with a two-column schema and a one-entry explicit
mapping the upload fails before writing and leaves the state untouched,
but the BadRequest message is `schema has 2 column(s), request - 1` — the
Go format string is `"schema has %d column(s), request - %d"` — not the
claimed `schema has 2 column(s), request has 1`. -/
theorem c6_counterexample :
    uploadStep (some ⟨[⟨"a", "int64", false⟩, ⟨"b", "int64", false⟩], []⟩)
        (⟨[("a", "A")], false, false, false, false, true, 0, 0, [["1"]]⟩ : UReq) =
      (some ⟨[⟨"a", "int64", false⟩, ⟨"b", "int64", false⟩], []⟩,
        .error (.badRequest "schema has 2 column(s), request - 1")) ∧
    "schema has 2 column(s), request - 1" ≠ "schema has 2 column(s), request has 1" := by
  constructor
  · rfl
  · decide

/-- C6 (amended): whenever the resolved column mapping's size differs from
the number of schema columns, `Upload` fails with a BadRequest whose
message states both counts as `schema has N column(s), request - M` (the
Go source writes `request - M`, not `request has M`), no rows are written
and the destination state — absent or present, whatever the transaction
saw at entry — is left exactly as it was, the create-mode creation having
happened inside the aborted transaction. -/
theorem c6_mapping_size_guard (st : Option Table) (req : UReq) (tbl : Table)
    (mapping : List (String × String))
    (hschema : uploadSchemaStage st req = .ok tbl)
    (hmap : uploadMappingStage req tbl.schem = .ok mapping)
    (hlen : mapping.length ≠ tbl.schem.length) :
    uploadStep st req =
      (st, .error (.badRequest ("schema has " ++ toString tbl.schem.length ++
        " column(s), request - " ++ toString mapping.length))) := by
  simp only [uploadStep, hschema, hmap, bind, Except.bind, if_pos hlen]

/-- Witness for the amended C6 at the counterexample instance. -/
theorem c6_mapping_size_guard_witness :
    uploadStep (some ⟨[⟨"a", "int64", false⟩, ⟨"b", "int64", false⟩], []⟩)
        (⟨[("a", "A")], false, false, false, false, true, 0, 0, [["1"]]⟩ : UReq) =
      (some ⟨[⟨"a", "int64", false⟩, ⟨"b", "int64", false⟩], []⟩,
        .error (.badRequest ("schema has " ++
          toString ([⟨"a", "int64", false⟩, ⟨"b", "int64", false⟩] : List UCol).length ++
          " column(s), request - " ++ toString ([("a", "A")] : List (String × String)).length))) :=
  c6_mapping_size_guard _ _ ⟨[⟨"a", "int64", false⟩, ⟨"b", "int64", false⟩], []⟩ [("a", "A")]
    rfl rfl (by decide)

/-! ## C7: row-weight accounting in `Convert` -/

theorem rowWeight_eq_sum (row : List (Option Cell)) :
    rowWeight row = (row.map cellWeightSpec).sum := by
  have hgen : ∀ (l : List (Option Cell)) (n : Nat),
      l.foldl (fun w v => match v with | none => w | some c => w + cellWeightGo c) n =
        n + (l.map cellWeightSpec).sum := by
    intro l
    induction l with
    | nil => intro n; simp
    | cons v rest ih =>
      intro n
      cases v with
      | none =>
        simp only [List.foldl_cons]
        rw [ih]
        simp [cellWeightSpec]
      | some c =>
        simp only [List.foldl_cons]
        rw [ih]
        rcases c with ⟨st, val⟩
        cases val <;> simp [cellWeightSpec, cellWeightGo] <;> omega
  simpa using hgen row 0

theorem convertLoop_weightCheck (mode : String) (maxSize : Nat) :
    ∀ (rows : List RowIn) (rs : List (List (Option Cell))) (acc : Nat),
    convertAllRows mode rows = .ok rs →
    (∀ w, specWeightCheck (rs.map rowWeight) maxSize acc = some w →
        convertLoop mode maxSize rows acc = .error (.tooLarge w maxSize)) ∧
    (specWeightCheck (rs.map rowWeight) maxSize acc = none →
        convertLoop mode maxSize rows acc = .ok rs) := by
  intro rows
  induction rows with
  | nil =>
    intro rs acc h
    simp only [convertAllRows] at h
    obtain rfl : rs = [] := (Except.ok.inj h).symm
    constructor
    · intro w hw
      simp [specWeightCheck] at hw
    · intro _
      simp [convertLoop]
  | cons r rest ih =>
    intro rs acc h
    cases h1 : convertRowCells mode r with
    | error e =>
      simp only [convertAllRows, h1, bind, Except.bind] at h
      exact Except.noConfusion h
    | ok cells =>
      cases h2 : convertAllRows mode rest with
      | error e =>
        simp only [convertAllRows, h1, h2, bind, Except.bind] at h
        exact Except.noConfusion h
      | ok out =>
        simp only [convertAllRows, h1, h2, bind, Except.bind] at h
        obtain rfl : rs = cells :: out := (Except.ok.inj h).symm
        obtain ⟨ihs, ihn⟩ := ih out (acc + rowWeight cells) h2
        constructor
        · intro w hw
          simp only [List.map_cons, specWeightCheck] at hw
          by_cases hge : maxSize ≤ acc + rowWeight cells
          · rw [if_pos hge] at hw
            obtain rfl : acc + rowWeight cells = w := Option.some.inj hw
            simp only [convertLoop, h1, bind, Except.bind, if_pos hge]
          · rw [if_neg hge] at hw
            simp only [convertLoop, h1, bind, Except.bind, if_neg hge, ihs w hw]
        · intro hn
          simp only [List.map_cons, specWeightCheck] at hn
          by_cases hge : maxSize ≤ acc + rowWeight cells
          · rw [if_pos hge] at hn
            exact absurd hn (by simp)
          · rw [if_neg hge] at hn
            simp only [convertLoop, h1, bind, Except.bind, if_neg hge, ihn hn]

/-- C7: per-cell weights are 8 bytes for integer/double cells, 1 for
booleans, the octet length for strings and 0 for absent cells, summed per
row; `Convert` adds each written row's weight to a running counter and
fails with an error carrying the accumulated weight and the configured
`MaxExcelFileSize` (both rendered human-readable in the message) at the
first row where the counter reaches the limit, returning no workbook;
when the limit is never reached it returns exactly the converted rows. -/
theorem c7_convert_weight_budget (mode : String) (maxSize : Nat) (rows : List RowIn)
    (rs : List (List (Option Cell))) (hconv : convertAllRows mode rows = .ok rs) :
    (∀ row : List (Option Cell), rowWeight row = (row.map cellWeightSpec).sum) ∧
    (∀ w, specWeightCheck (rs.map (fun r => (r.map cellWeightSpec).sum)) maxSize 0 = some w →
        exporterConvert mode maxSize rows = .error (.tooLarge w maxSize)) ∧
    (specWeightCheck (rs.map (fun r => (r.map cellWeightSpec).sum)) maxSize 0 = none →
        exporterConvert mode maxSize rows = .ok rs) := by
  have hmap : rs.map (fun r => (r.map cellWeightSpec).sum) = rs.map rowWeight := by
    refine List.map_congr_left (fun r _ => ?_)
    exact (rowWeight_eq_sum r).symm
  rw [hmap]
  obtain ⟨hs, hn⟩ := convertLoop_weightCheck mode maxSize rows rs 0 hconv
  exact ⟨rowWeight_eq_sum, hs, hn⟩

/-- Witness for C7: two one-cell rows (a one-byte string and a boolean)
against a limit of 2 fail at the second row with accumulated weight 2. -/
theorem c7_convert_weight_budget_witness :
    exporterConvert "error" 2
        [[some ("string", .str [65])], [some ("boolean", .bool true)]] =
      .error (.tooLarge 2 2) :=
  (c7_convert_weight_budget "error" 2
      [[some ("string", .str [65])], [some ("boolean", .bool true)]]
      [[some ⟨none, .str [65]⟩], [some ⟨none, .bool true⟩]] (by decide)).2.1 2 (by decide)

/-! ## C8: the 32767-unit string cap — length bounds for every text path -/

theorem padLeftZeros_length (w : Nat) (cs : List Char) :
    (padLeftZeros w cs).length = max w cs.length := by
  simp [padLeftZeros]
  omega

theorem pad2_length_le (n : Nat) (h : n < 10 ^ 10) : (pad2 n).length ≤ 10 := by
  have := natRepr_length_le n 10 (by norm_num) h
  simp [pad2, padLeftZeros_length]
  omega

theorem pad4Year_length_le (y : Int) (h : y.natAbs < 10 ^ 10) :
    (pad4Year y).length ≤ 11 := by
  have := natRepr_length_le y.natAbs 10 (by norm_num) h
  unfold pad4Year
  split
  · simp [padLeftZeros_length]
    omega
  · simp [padLeftZeros_length]
    omega

theorem dropTrailingZeros_length_le (cs : List Char) :
    (dropTrailingZeros cs).length ≤ cs.length := by
  unfold dropTrailingZeros
  rw [List.length_reverse]
  exact ((List.dropWhile_sublist _).length_le).trans (le_of_eq (List.length_reverse cs))

theorem fracTrim_length_le (u : Nat) (h : u < 10 ^ 10) : (fracTrim u).length ≤ 11 := by
  simp only [fracTrim]
  split
  · simp
  · have h1 := dropTrailingZeros_length_le (padLeftZeros 6 (natRepr u))
    have h2 := natRepr_length_le u 10 (by norm_num) h
    rw [padLeftZeros_length] at h1
    simp only [List.length_cons]
    omega

theorem civilFromDays_bounds (z0 : Int) (hz1 : -300000000 ≤ z0) (hz2 : z0 ≤ 300000000) :
    (civilFromDays z0).1.natAbs < 10 ^ 10 ∧ (civilFromDays z0).2.1 < 10 ^ 10 ∧
    (civilFromDays z0).2.2 < 10 ^ 10 := by
  simp only [civilFromDays]
  split_ifs <;> exact ⟨by omega, by omega, by omega⟩

theorem goTimestampString_length_le (t : Int) (ht1 : -(2 ^ 64) ≤ t) (ht2 : t ≤ 2 ^ 64) :
    (goTimestampString t).data.length ≤ 100 := by
  have hdays1 : -300000000 ≤ t / 86400000000 := by omega
  have hdays2 : t / 86400000000 ≤ 300000000 := by omega
  obtain ⟨hy, hmo, hd⟩ := civilFromDays_bounds _ hdays1 hdays2
  have hsod : (t % 86400000000).toNat / 1000000 < 10 ^ 10 := by omega
  have hh := pad2_length_le _ (show (t % 86400000000).toNat / 1000000 / 3600 < 10 ^ 10 by omega)
  have hmi := pad2_length_le _
    (show (t % 86400000000).toNat / 1000000 % 3600 / 60 < 10 ^ 10 by omega)
  have hss := pad2_length_le _ (show (t % 86400000000).toNat / 1000000 % 60 < 10 ^ 10 by omega)
  have hfr := fracTrim_length_le ((t % 86400000000).toNat % 1000000) (by omega)
  have hy' := pad4Year_length_le _ hy
  have hmo' := pad2_length_le _ hmo
  have hd' := pad2_length_le _ hd
  simp only [goTimestampString, isoRender, List.length_append, List.length_cons,
    List.length_nil]
  omega

theorem intRepr_length_le (z : Int) (k : Nat) (hk : 1 ≤ k) (h : z.natAbs < 10 ^ k) :
    (intRepr z).length ≤ k + 1 := by
  have := natRepr_length_le z.natAbs k hk h
  unfold intRepr
  split
  · simp only [List.length_cons]
    omega
  · omega

theorem cell_str_of_convertBytes (bs' : List Nat) (c : Cell) (bs : List Nat)
    (h : convertBytes bs' = .ok c) (hv : c.value = .str bs) : bs.length ≤ 32767 := by
  obtain rfl : (⟨none, .str (bs'.take maxExcelStrLen)⟩ : Cell) = c := Except.ok.inj h
  simp only [CellValue.str.injEq] at hv
  rw [← hv, List.length_take]
  simp [maxExcelStrLen]

theorem cell_str_of_convertLargeIntegers (mode : String) (z : Int) (c : Cell) (bs : List Nat)
    (hz : z.natAbs < 10 ^ 20) (h : convertLargeIntegers mode z = .ok c)
    (hv : c.value = .str bs) : bs.length ≤ 32767 := by
  have hlen := intRepr_length_le z 20 (by norm_num) hz
  unfold convertLargeIntegers convertSmallIntegers at h
  split_ifs at h <;>
    first
    | exact Except.noConfusion h
    | (obtain rfl := Except.ok.inj h
       first
       | (simp only [CellValue.str.injEq] at hv
          rw [← hv, List.length_map]
          omega)
       | simp at hv)

theorem cell_str_of_convertFloat (mode : String) (f : GoFloat) (c : Cell) (bs : List Nat)
    (hf : f.rendered.length ≤ 24) (h : convertFloat mode f = .ok c)
    (hv : c.value = .str bs) : bs.length ≤ 32767 := by
  unfold convertFloat at h
  split_ifs at h <;>
    first
    | exact Except.noConfusion h
    | (obtain rfl := Except.ok.inj h
       first
       | (simp only [CellValue.str.injEq] at hv
          rw [← hv, List.length_map]
          omega)
       | simp at hv)

theorem cell_str_of_convertTimestampEx (n : Nat) (c : Cell) (bs : List Nat)
    (hn : n < 2 ^ 64) (h : convertTimestampEx n = .ok c)
    (hv : c.value = .str bs) : bs.length ≤ 32767 := by
  have hcast : -(2 ^ 64) ≤ toInt64 n ∧ toInt64 n ≤ 2 ^ 64 := by
    unfold toInt64
    split <;> omega
  unfold convertTimestampEx at h
  split_ifs at h
  · obtain rfl :
        (⟨some .timestamp, .float ((((n + 2209161600000000) % 2 ^ 64 : Nat) : Rat) /
          86400 / 1000000)⟩ : Cell) = c := Except.ok.inj h
    simp at hv
  · obtain rfl : (⟨none, .str (strBytes (goTimestampString (toInt64 n)))⟩ : Cell) = c :=
      Except.ok.inj h
    simp only [CellValue.str.injEq] at hv
    have := goTimestampString_length_le (toInt64 n) hcast.1 hcast.2
    rw [← hv]
    simp only [strBytes, List.length_map]
    omega

theorem cell_str_of_convertAny (ys : List Nat) (c : Cell) (bs : List Nat)
    (h : convertAny ys = .ok c) (hv : c.value = .str bs) : bs.length ≤ 32767 := by
  obtain rfl : (⟨none, .str (ys.take maxExcelStrLen)⟩ : Cell) = c := Except.ok.inj h
  simp only [CellValue.str.injEq] at hv
  rw [← hv, List.length_take]
  simp [maxExcelStrLen]

set_option maxHeartbeats 2000000 in
/-- C8: string and bytes values are emitted as their prefix of at most
32767 octets (exactly 32767 when the value is longer); the serialized
form of an `any` value is truncated identically; and no successful encode
of any well-typed value, for any schema type and precision mode, yields a
string cell longer than 32767 octets. -/
theorem c8_string_length_cap :
    (∀ bs : List Nat,
      convertBytes bs = .ok ⟨none, .str (bs.take 32767)⟩ ∧
      (bs.take 32767).length = min bs.length 32767 ∧
      (32767 ≤ bs.length → (bs.take 32767).length = 32767)) ∧
    (∀ ys : List Nat, convertAny ys = .ok ⟨none, .str (ys.take 32767)⟩) ∧
    (∀ (mode t : String) (v : Value) (c : Cell) (bs : List Nat),
      valueWF t v = true → exConvert mode t v = .ok c → c.value = .str bs →
      bs.length ≤ 32767) := by
  refine ⟨fun bs => ⟨rfl, ?_, fun hb => ?_⟩, fun ys => rfl, ?_⟩
  · rw [List.length_take]
    omega
  · rw [List.length_take]
    omega
  intro mode t v c bs hwf h hv
  unfold exConvert at h
  by_cases h1 : t = "string"
  · rw [if_pos h1] at h
    cases v <;> first
      | exact cell_str_of_convertBytes _ c bs h hv
      | exact Except.noConfusion h
  rw [if_neg h1] at h
  by_cases h2 : t = "utf8"
  · rw [if_pos h2] at h
    cases v <;> first
      | exact cell_str_of_convertBytes _ c bs h hv
      | exact Except.noConfusion h
  rw [if_neg h2] at h
  by_cases h3 : t = "int8" ∨ t = "uint8" ∨ t = "int16" ∨ t = "uint16" ∨ t = "int32" ∨ t = "uint32"
  · rw [if_pos h3] at h
    cases v <;> first
      | exact Except.noConfusion h
      | (unfold convertSmallIntegers at h
         obtain rfl := Except.ok.inj h
         simp at hv)
  rw [if_neg h3] at h
  by_cases h4 : t = "int64" ∨ t = "uint64"
  · rw [if_pos h4] at h
    cases v with
    | int z =>
      rcases h4 with rfl | rfl
      · simp [valueWF] at hwf
        exact cell_str_of_convertLargeIntegers mode z c bs (by omega) h hv
      · simp [valueWF] at hwf
        exact cell_str_of_convertLargeIntegers mode z c bs (by omega) h hv
    | float f => exact Except.noConfusion h
    | bool b => exact Except.noConfusion h
    | str bs' => exact Except.noConfusion h
    | anyVal ys => exact Except.noConfusion h
  rw [if_neg h4] at h
  by_cases h5 : t = "float" ∨ t = "double"
  · rw [if_pos h5] at h
    cases v with
    | float f =>
      rcases h5 with rfl | rfl
      · simp [valueWF] at hwf
        exact cell_str_of_convertFloat mode f c bs hwf h hv
      · simp [valueWF] at hwf
        exact cell_str_of_convertFloat mode f c bs hwf h hv
    | int z => exact Except.noConfusion h
    | bool b => exact Except.noConfusion h
    | str bs' => exact Except.noConfusion h
    | anyVal ys => exact Except.noConfusion h
  rw [if_neg h5] at h
  by_cases h6 : t = "boolean"
  · rw [if_pos h6] at h
    cases v <;> first
      | exact Except.noConfusion h
      | (unfold convertBool at h
         obtain rfl := Except.ok.inj h
         simp at hv)
  rw [if_neg h6] at h
  by_cases h7 : t = "date"
  · rw [if_pos h7] at h
    cases v <;> first
      | exact Except.noConfusion h
      | (unfold convertDateEx at h
         obtain rfl := Except.ok.inj h
         simp at hv)
  rw [if_neg h7] at h
  by_cases h8 : t = "datetime"
  · rw [if_pos h8] at h
    cases v <;> first
      | exact Except.noConfusion h
      | (unfold convertDatetimeEx at h
         obtain rfl := Except.ok.inj h
         simp at hv)
  rw [if_neg h8] at h
  by_cases h9 : t = "timestamp"
  · rw [if_pos h9] at h
    cases v with
    | int z =>
      subst h9
      simp [valueWF] at hwf
      exact cell_str_of_convertTimestampEx z.toNat c bs (by omega) h hv
    | float f => exact Except.noConfusion h
    | bool b => exact Except.noConfusion h
    | str bs' => exact Except.noConfusion h
    | anyVal ys => exact Except.noConfusion h
  rw [if_neg h9] at h
  by_cases h10 : t = "interval"
  · rw [if_pos h10] at h
    cases v with
    | int z =>
      subst h10
      simp [valueWF] at hwf
      exact cell_str_of_convertLargeIntegers mode z c bs (by omega) h hv
    | float f => exact Except.noConfusion h
    | bool b => exact Except.noConfusion h
    | str bs' => exact Except.noConfusion h
    | anyVal ys => exact Except.noConfusion h
  rw [if_neg h10] at h
  by_cases h11 : t = "any"
  · rw [if_pos h11] at h
    cases v <;> first
      | exact cell_str_of_convertAny _ c bs h hv
      | exact Except.noConfusion h
  rw [if_neg h11] at h
  obtain rfl := Except.ok.inj h
  simp only [CellValue.str.injEq] at hv
  rw [← hv]
  decide

/-- Witness for C8: the 40000-octet value is cut to exactly 32767, and a
well-typed concrete string value passes through under the cap. -/
theorem c8_string_length_cap_witness :
    ((List.replicate 40000 65).take 32767).length = 32767 ∧
    ([65, 66] : List Nat).length ≤ 32767 :=
  ⟨(c8_string_length_cap.1 (List.replicate 40000 65)).2.2
     (by rw [List.length_replicate]; norm_num),
   c8_string_length_cap.2.2 "lose" "string" (.str [65, 66]) ⟨none, .str [65, 66]⟩ [65, 66]
     (by decide) (by decide) rfl⟩

/-! ## C9: file-name derivation -/

theorem replaceNonAlphanumeric_eq_map (l : List Char) :
    replaceNonAlphanumeric l = l.map (fun c => if isWordChar c then c else '_') := by
  induction l with
  | nil => rfl
  | cons c cs ih => simp [replaceNonAlphanumeric, ih]

theorem dot_not_mem_replaceNonAlphanumeric (l : List Char) :
    '.' ∉ replaceNonAlphanumeric l := by
  rw [replaceNonAlphanumeric_eq_map]
  intro hmem
  obtain ⟨c, _, hc⟩ := List.mem_map.mp hmem
  by_cases hw : isWordChar c
  · rw [if_pos hw] at hc
    subst hc
    simp [isWordChar] at hw
  · rw [if_neg hw] at hc
    exact absurd hc (by decide)

theorem dot_not_mem_natRepr (n : Nat) : '.' ∉ natRepr n := by
  intro hmem
  have hall := digitsCore_all_digits (n + 1) n
  rw [List.all_eq_true] at hall
  have := hall '.' hmem
  simp [isDigitCh] at this

theorem dot_not_mem_intRepr (z : Int) : '.' ∉ intRepr z := by
  unfold intRepr
  split
  · intro hmem
    rcases List.mem_cons.mp hmem with hc | hc
    · exact absurd hc (by decide)
    · exact dot_not_mem_natRepr _ hc
  · exact dot_not_mem_natRepr _

theorem xlsx_suffix_ensureXlsxSuffix (l : List Char) :
    ['.', 'x', 'l', 's', 'x'] <:+ ensureXlsxSuffix l := by
  unfold ensureXlsxSuffix
  split
  · assumption
  · exact List.suffix_append l _

theorem ensureXlsxSuffix_of_suffix (l : List Char)
    (h : ['.', 'x', 'l', 's', 'x'] <:+ l) : ensureXlsxSuffix l = l := by
  unfold ensureXlsxSuffix
  rw [if_pos h]

/-- C9: every derived file name ends in `.xlsx` (and a name already ending
in `.xlsx` is not given a second one); a constructed name is a base of at
most 158 characters followed by a single `.xlsx` — the base, built from
`yt`, the sanitized path, the optional sanitized column part, the optional
row range and the random suffix, carries no `.` at all, so `.xlsx` appears
exactly once; and sanitization maps exactly the characters outside
`[A-Za-z0-9_]` to `_`, leaving the rest unchanged. -/
theorem c9_filename_derivation :
    (∀ (filename : String) (attr : Option String) (path : String) (columns : List String)
        (allRows : Bool) (startRow rowCount : Int) (suffix : List Char),
      ['.', 'x', 'l', 's', 'x'] <:+
        ensureFileName filename attr path columns allRows startRow rowCount suffix) ∧
    (∀ l : List Char, ['.', 'x', 'l', 's', 'x'] <:+ l → ensureXlsxSuffix l = l) ∧
    (∀ (path : String) (columns : List String) (allRows : Bool) (startRow rowCount : Int)
        (suffix : List Char), '.' ∉ suffix →
      ∃ base : List Char,
        makeFileName path columns allRows startRow rowCount suffix =
          base ++ ['.', 'x', 'l', 's', 'x'] ∧
        base.length ≤ 158 ∧
        base.count '.' = 0 ∧
        (makeFileName path columns allRows startRow rowCount suffix).count '.' = 1) ∧
    (∀ l : List Char,
      replaceNonAlphanumeric l = l.map (fun c => if isWordChar c then c else '_')) := by
  refine ⟨?_, ensureXlsxSuffix_of_suffix, ?_, replaceNonAlphanumeric_eq_map⟩
  · intro filename attr path columns allRows startRow rowCount suffix
    unfold ensureFileName
    split
    · exact xlsx_suffix_ensureXlsxSuffix _
    · cases attr with
      | some a =>
        by_cases ha : a ≠ ""
        · simp only [if_pos ha]
          exact xlsx_suffix_ensureXlsxSuffix _
        · simp only [if_neg ha]
          exact xlsx_suffix_ensureXlsxSuffix _
      | none => exact xlsx_suffix_ensureXlsxSuffix _
  · intro path columns allRows startRow rowCount suffix hsuf
    unfold makeFileName
    set raw : List Char := ('y' :: 't' :: replaceNonAlphanumeric path.data)
      ++ (if columns ≠ [] then
            '_' :: '_' :: replaceNonAlphanumeric (String.intercalate "_" columns).data
          else [])
      ++ (if allRows then [] else
            '_' :: '_' :: intRepr startRow ++ '_' :: intRepr (startRow + rowCount) ++ ['_', '_'])
      ++ suffix with hraw
    have hdotraw : '.' ∉ raw := by
      rw [hraw]
      intro hmem
      rcases List.mem_append.mp hmem with h | h
      · rcases List.mem_append.mp h with h | h
        · rcases List.mem_append.mp h with h | h
          · rcases List.mem_cons.mp h with h | h
            · exact absurd h (by decide)
            rcases List.mem_cons.mp h with h | h
            · exact absurd h (by decide)
            exact dot_not_mem_replaceNonAlphanumeric _ h
          · by_cases hcols : columns = []
            · rw [if_neg (by simp [hcols])] at h
              simp at h
            · rw [if_pos hcols] at h
              rcases List.mem_cons.mp h with h | h
              · exact absurd h (by decide)
              rcases List.mem_cons.mp h with h | h
              · exact absurd h (by decide)
              exact dot_not_mem_replaceNonAlphanumeric _ h
        · by_cases hA : allRows = true
          · rw [if_pos hA] at h
            simp at h
          · rw [if_neg hA] at h
            rcases List.mem_cons.mp h with h | h
            · exact absurd h (by decide)
            rcases List.mem_cons.mp h with h | h
            · exact absurd h (by decide)
            rcases List.mem_append.mp h with h | h
            · rcases List.mem_append.mp h with h | h
              · exact dot_not_mem_intRepr _ h
              rcases List.mem_cons.mp h with h | h
              · exact absurd h (by decide)
              exact dot_not_mem_intRepr _ h
            · simp at h
      · exact hsuf h
    set base : List Char := if 158 < raw.length then raw.take 158 else raw with hbase
    have hdotbase : '.' ∉ base := by
      rw [hbase]
      split
      · intro hmem
        exact hdotraw (List.mem_of_mem_take hmem)
      · exact hdotraw
    have hlen : base.length ≤ 158 := by
      rw [hbase]
      split
      · rw [List.length_take]
        omega
      · omega
    refine ⟨base, ?_, hlen, List.count_eq_zero.mpr hdotbase, ?_⟩
    · rfl
    · show (base ++ ['.', 'x', 'l', 's', 'x']).count '.' = 1
      rw [List.count_append, List.count_eq_zero.mpr hdotbase]
      decide

/-- Witness for C9 at concrete inputs: a supplied name keeps its suffix, a
constructed name decomposes as stated, and sanitization of `a b.c` maps
exactly the space and the dot. -/
theorem c9_filename_derivation_witness :
    (['.', 'x', 'l', 's', 'x'] <:+
      ensureFileName "data.xlsx" none "//home/t" ["a"] false 5 7 ['a', 'b', 'c']) ∧
    ensureXlsxSuffix "a.xlsx".data = "a.xlsx".data ∧
    (∃ base : List Char,
      makeFileName "//home/t" ["a", "b"] false 5 7 ['f', '0', '9'] =
        base ++ ['.', 'x', 'l', 's', 'x'] ∧
      base.length ≤ 158 ∧
      base.count '.' = 0 ∧
      (makeFileName "//home/t" ["a", "b"] false 5 7 ['f', '0', '9']).count '.' = 1) ∧
    replaceNonAlphanumeric "a b.c".data =
      "a b.c".data.map (fun c => if isWordChar c then c else '_') :=
  ⟨c9_filename_derivation.1 "data.xlsx" none "//home/t" ["a"] false 5 7 ['a', 'b', 'c'],
   c9_filename_derivation.2.1 "a.xlsx".data (by decide),
   c9_filename_derivation.2.2.1 "//home/t" ["a", "b"] false 5 7 ['f', '0', '9'] (by decide),
   c9_filename_derivation.2.2.2 "a b.c".data⟩

end YtExcel
